import Mathlib

/-!
Verification development for the JfkDocumentScraper download orchestration
engine (src/server/downloader.ts, src/server/storage.ts,
src/server/routes.ts and the drizzle schema).

The TypeScript source is shallowly embedded as executable Lean functions.
Conventions used throughout:

* JavaScript numbers that only ever hold integers (ids, byte counts,
  counters, timestamps in milliseconds) are modelled as `Nat` or `Int`;
  fractional arithmetic (download speeds) is modelled in `ℚ`, which is
  exact where the source uses binary floating point.  No claim settled
  here depends on float rounding.
* JavaScript `Map` objects are modelled as insertion-ordered association
  lists (`List (Nat × α)`): `Map.get` is `mapGet`, `Map.set` is `mapSet`
  (replace in place when the key is present, append otherwise), matching
  the iteration-order semantics of `Map.values()`.
* `async` semantics: an `async` function body runs synchronously up to
  its first `await`; every `await e` first evaluates `e` (so the effects
  of the awaited `MemStorage` methods, which contain no inner `await`,
  land synchronously) and then suspends the caller.  The un-awaited call
  `this.downloadFile(jobId, file)` inside `processQueue` therefore
  contributes only the synchronous prefix of `downloadFile` (one store
  update) before control returns to the drain loop; the remainder of
  `downloadFile` is a suspended continuation.  We model the prefix as
  `downloadFileStart`, the segment up to the `fetch` call as
  `downloadFileSeg1`, and the post-`fetch` continuation (run to
  completion without interleaving) as `downloadFileAfterFetch`.
  The `spawned` field of `Sys` is the append-only log of fetches started
  by the drain loop, in order.
* Filesystem, network and zip effects are abstracted into explicit
  parameters (`ArchiveEnv`, `FetchResult`): the temp-directory listing,
  the validity (exists and non-zero size) of a staged file, the zip
  outcome and size, and the wall clock.
-/

namespace JfkScraper

/-- JavaScript Map modelled as insertion-ordered association list: `get`. -/
def mapGet {α : Type} (m : List (Nat × α)) (k : Nat) : Option α :=
  (m.find? (fun p => p.1 == k)).map (fun p => p.2)

/-- JavaScript `Map.set`: replace in place if the key is present, else append. -/
def mapSet {α : Type} (m : List (Nat × α)) (k : Nat) (v : α) : List (Nat × α) :=
  if (m.find? (fun p => p.1 == k)).isSome then
    m.map (fun p => if p.1 == k then (k, v) else p)
  else
    m ++ [(k, v)]

/-- JavaScript `Map.delete`. -/
def mapDelete {α : Type} (m : List (Nat × α)) (k : Nat) : List (Nat × α) :=
  m.filter (fun p => p.1 != k)

/-- PdfFile row of the drizzle schema (shared/schema.ts): `size` is a nullable
text column, `status` defaults to "ready", `createdAt` is a timestamp in ms. -/
structure PdfFile where
  id : Nat
  url : String
  filename : String
  size : Option String
  status : String
  progress : Int
  createdAt : Nat
deriving DecidableEq, Repr

/-- DownloadJob row of the drizzle schema. -/
structure DownloadJob where
  id : Nat
  name : String
  totalFiles : Int
  downloadedFiles : Int
  size : Option String
  status : String
  createdAt : Nat
  completedAt : Option Nat
deriving DecidableEq, Repr

/-- CompletedDownload row (the ArchiveRecord of the spec). -/
structure CompletedDownload where
  id : Nat
  filename : String
  contents : String
  size : String
  path : String
  date : Nat
deriving DecidableEq, Repr

/-- History row. -/
structure History where
  id : Nat
  date : Nat
  action : String
  details : String
  filesCount : Int
deriving DecidableEq, Repr

/-- TypeScript `Partial<PdfFile>` (storage.ts `updatePdfFile`): each field is
present (overriding) or absent.  A present nullable column carries an inner
Option. -/
structure PdfFileUpdate where
  id : Option Nat := none
  url : Option String := none
  filename : Option String := none
  size : Option (Option String) := none
  status : Option String := none
  progress : Option Int := none
  createdAt : Option Nat := none
deriving DecidableEq, Repr

/-- TypeScript `Partial<DownloadJob>`. -/
structure DownloadJobUpdate where
  id : Option Nat := none
  name : Option String := none
  totalFiles : Option Int := none
  downloadedFiles : Option Int := none
  size : Option (Option String) := none
  status : Option String := none
  createdAt : Option Nat := none
  completedAt : Option (Option Nat) := none
deriving DecidableEq, Repr

/-- JavaScript object spread `{ ...file, ...data }` with `data : Partial<PdfFile>`. -/
def PdfFile.applyUpdate (f : PdfFile) (u : PdfFileUpdate) : PdfFile where
  id := u.id.getD f.id
  url := u.url.getD f.url
  filename := u.filename.getD f.filename
  size := u.size.getD f.size
  status := u.status.getD f.status
  progress := u.progress.getD f.progress
  createdAt := u.createdAt.getD f.createdAt

/-- JavaScript object spread `{ ...job, ...data }` with `data : Partial<DownloadJob>`. -/
def DownloadJob.applyUpdate (j : DownloadJob) (u : DownloadJobUpdate) : DownloadJob where
  id := u.id.getD j.id
  name := u.name.getD j.name
  totalFiles := u.totalFiles.getD j.totalFiles
  downloadedFiles := u.downloadedFiles.getD j.downloadedFiles
  size := u.size.getD j.size
  status := u.status.getD j.status
  createdAt := u.createdAt.getD j.createdAt
  completedAt := u.completedAt.getD j.completedAt

/-- In-memory record store (storage.ts `MemStorage`).  Settings are not
modelled: no claim touches them. -/
structure MemStorage where
  pdfFiles : List (Nat × PdfFile)
  downloadJobs : List (Nat × DownloadJob)
  completedDownloads : List (Nat × CompletedDownload)
  historyEntries : List (Nat × History)
  pdfFilesCounter : Nat
  downloadJobsCounter : Nat
  completedDownloadsCounter : Nat
  historyCounter : Nat
deriving DecidableEq, Repr

/-- Fresh store as built by the `MemStorage` constructor. -/
def MemStorage.empty : MemStorage :=
  ⟨[], [], [], [], 1, 1, 1, 1⟩

def MemStorage.getPdfFiles (s : MemStorage) : List PdfFile :=
  s.pdfFiles.map (fun p => p.2)

def MemStorage.getPdfFile (s : MemStorage) (id : Nat) : Option PdfFile :=
  mapGet s.pdfFiles id

/-- storage.ts `createPdfFile`: assigns the next id, progress 0, createdAt now. -/
def MemStorage.createPdfFile (s : MemStorage) (now : Nat) (url filename : String)
    (size : Option String) (status : String) : PdfFile × MemStorage :=
  let id := s.pdfFilesCounter
  let f : PdfFile := ⟨id, url, filename, size, status, 0, now⟩
  (f, { s with pdfFiles := mapSet s.pdfFiles id f, pdfFilesCounter := id + 1 })

/-- storage.ts `updatePdfFile`: returns `undefined` and leaves the store
unchanged when the id is missing, else replaces the record by the spread. -/
def MemStorage.updatePdfFile (s : MemStorage) (id : Nat) (u : PdfFileUpdate) :
    Option PdfFile × MemStorage :=
  match mapGet s.pdfFiles id with
  | none => (none, s)
  | some f =>
    let f' := f.applyUpdate u
    (some f', { s with pdfFiles := mapSet s.pdfFiles id f' })

def MemStorage.getDownloadJob (s : MemStorage) (id : Nat) : Option DownloadJob :=
  mapGet s.downloadJobs id

/-- storage.ts `createDownloadJob`: next id, downloadedFiles 0, completedAt null. -/
def MemStorage.createDownloadJob (s : MemStorage) (now : Nat) (name : String)
    (totalFiles : Int) (size : Option String) (status : String) :
    DownloadJob × MemStorage :=
  let id := s.downloadJobsCounter
  let j : DownloadJob := ⟨id, name, totalFiles, 0, size, status, now, none⟩
  (j, { s with downloadJobs := mapSet s.downloadJobs id j,
               downloadJobsCounter := id + 1 })

/-- storage.ts `updateDownloadJob`. -/
def MemStorage.updateDownloadJob (s : MemStorage) (id : Nat) (u : DownloadJobUpdate) :
    Option DownloadJob × MemStorage :=
  match mapGet s.downloadJobs id with
  | none => (none, s)
  | some j =>
    let j' := j.applyUpdate u
    (some j', { s with downloadJobs := mapSet s.downloadJobs id j' })

/-- storage.ts `createCompletedDownload`. -/
def MemStorage.createCompletedDownload (s : MemStorage) (now : Nat)
    (filename contents size path : String) : CompletedDownload × MemStorage :=
  let id := s.completedDownloadsCounter
  let d : CompletedDownload := ⟨id, filename, contents, size, path, now⟩
  (d, { s with completedDownloads := mapSet s.completedDownloads id d,
               completedDownloadsCounter := id + 1 })

/-- storage.ts `createHistoryEntry`. -/
def MemStorage.createHistoryEntry (s : MemStorage) (now : Nat)
    (action details : String) (filesCount : Int) : History × MemStorage :=
  let id := s.historyCounter
  let h : History := ⟨id, now, action, details, filesCount⟩
  (h, { s with historyEntries := mapSet s.historyEntries id h,
               historyCounter := id + 1 })

/-! ### String and number helpers used by downloader.ts and routes.ts -/

/-- Value of a digit character; helper for `digitsToNat`. -/
def digitVal (c : Char) : Nat := c.toNat - '0'.toNat

/-- JavaScript `parseInt(s, 10)` on a non-empty string of decimal digits. -/
def digitsToNat (ds : List Char) : Nat :=
  ds.foldl (fun acc c => 10 * acc + digitVal c) 0

/-- Maximal leading run of decimal digits of a character list, with the rest. -/
def takeDigits (cs : List Char) : List Char × List Char :=
  match cs with
  | [] => ([], [])
  | c :: rest =>
    if c.isDigit then
      let (d, r) := takeDigits rest
      (c :: d, r)
    else ([], cs)

/-- First maximal run of decimal digits in a list, if any: the JavaScript
regex match `/(\d+)/` (downloader.ts line 239, routes.ts line 393). -/
def firstDigitRun : List Char → Option (List Char)
  | [] => none
  | c :: cs =>
    if c.isDigit then some (takeDigits (c :: cs)).1
    else firstDigitRun cs

/-- JavaScript regex `/(\d+)-(\d+)/` (downloader.ts line 233, routes.ts
line 388): leftmost occurrence of a digit run, a dash, and a digit run;
returns the two parsed groups.  No backtracking case arises because a
shortened first group would have to put a digit where the dash is. -/
def findRange : List Char → Option (Nat × Nat)
  | [] => none
  | c :: cs =>
    if c.isDigit then
      let (d1, r1) := takeDigits (c :: cs)
      match r1 with
      | '-' :: r2 =>
        let (d2, _) := takeDigits r2
        if d2.isEmpty then findRange cs else some (digitsToNat d1, digitsToNat d2)
      | _ => findRange cs
    else findRange cs

/-- Does `pat` occur at the head of `cs`?  (Plain list equality on the head.) -/
def listStartsWith (pat cs : List Char) : Bool :=
  match pat, cs with
  | [], _ => true
  | _ :: _, [] => false
  | p :: ps, c :: rest => p == c && listStartsWith ps rest

/-- JavaScript regex `/Series (\d+)/` (downloader.ts line 225): leftmost
occurrence of the literal "Series " followed by at least one digit; returns
the captured digit run. -/
def findSeries : List Char → Option (List Char)
  | [] => none
  | c :: cs =>
    if listStartsWith "Series ".data (c :: cs) then
      let (d, _) := takeDigits ((c :: cs).drop 7)
      if d.isEmpty then findSeries cs else some d
    else findSeries cs

/-- JavaScript regex `/^(\d{3})/` (downloader.ts line 229): the first three
characters when they are all digits. -/
def leadingThreeDigits (cs : List Char) : Option (List Char) :=
  match cs with
  | c0 :: c1 :: c2 :: _ =>
    if c0.isDigit && c1.isDigit && c2.isDigit then some [c0, c1, c2] else none
  | _ => none

/-- Does `sub` occur (contiguously) anywhere in `t`?  Checked position by
position. -/
def listContainsSub (t sub : List Char) : Bool :=
  match t with
  | [] => sub.isEmpty
  | _ :: rest => listStartsWith sub t || listContainsSub rest sub

/-- JavaScript `t.includes(sub)` (downloader.ts line 263). -/
def strContains (t sub : String) : Bool :=
  listContainsSub t.data sub.data

/-- JavaScript `name.replace(/\s+/g, "-").toLowerCase()` (downloader.ts
line 253): whitespace runs collapse to a single dash, then lower-case. -/
def wsToDashLower (s : String) : String :=
  ⟨(s.data.foldl (fun (acc : List Char × Bool) c =>
      if c.isWhitespace then
        (if acc.2 then acc.1 else acc.1 ++ ['-'], true)
      else
        (acc.1 ++ [c.toLower], false)) ([], false)).1⟩

/-- JavaScript `x || dflt` on a nullable string (downloader.ts line 177):
null and the empty string are falsy. -/
def jsOr (o : Option String) (dflt : String) : String :=
  match o with
  | some s => if s = "" then dflt else s
  | none => dflt

/-- ECMAScript `Number.prototype.toFixed(1)` for a non-negative value,
computed in exact rational arithmetic: nearest multiple of 1/10, ties
upward. -/
def toFixed1 (q : ℚ) : String :=
  let n : Int := (q * 10 + 1 / 2).floor
  toString (n / 10) ++ "." ++ toString (n % 10).natAbs

/-- Byte-count formatting of downloader.ts lines 157-165 and 289-297:
B below 1024, then KB / MB / GB with one decimal. -/
def formatBytes (n : Nat) : String :=
  if n < 1024 then toString n ++ " B"
  else if n < 1024 * 1024 then toFixed1 ((n : ℚ) / 1024) ++ " KB"
  else if n < 1024 * 1024 * 1024 then toFixed1 ((n : ℚ) / (1024 * 1024)) ++ " MB"
  else toFixed1 ((n : ℚ) / (1024 * 1024 * 1024)) ++ " GB"

/-- Job-to-file matching of downloader.ts `completeJob` lines 223-247: a
"Series N" job matches files whose three-digit filename prefix equals the
series digits; otherwise a "start-end" ranged name matches files whose
first number falls in the range; otherwise nothing matches. -/
def matchesJobName (jobName filename : String) : Bool :=
  match findSeries jobName.data with
  | some series =>
    match leadingThreeDigits filename.data with
    | some pre => decide ((⟨pre⟩ : String) = (⟨series⟩ : String))
    | none => false
  | none =>
    match findRange jobName.data with
    | some (startNum, endNum) =>
      match firstDigitRun filename.data with
      | some run =>
        let fileNum := digitsToNat run
        decide (startNum ≤ fileNum ∧ fileNum ≤ endNum)
      | none => false
    | none => false

/-- File matching of the retry endpoint, routes.ts lines 385-402: only the
"start-end" range form is recognised there. -/
def retryMatchesJobName (jobName filename : String) : Bool :=
  match findRange jobName.data with
  | some (startNum, endNum) =>
    match firstDigitRun filename.data with
    | some run =>
      let fileNum := digitsToNat run
      decide (startNum ≤ fileNum ∧ fileNum ≤ endNum)
    | none => false
  | none => false

/-! ### Downloader state (downloader.ts) -/

/-- Per-in-flight-download tracking record (downloader.ts lines 20-25). -/
structure ActiveDownload where
  jobId : Nat
  fileId : Nat
  bytesDownloaded : Nat
  startTime : Nat
deriving DecidableEq, Repr

/-- Mutable fields of the `Downloader` class (downloader.ts lines 27-39).
`queue` entries pair a job id with the `PdfFile` object captured at enqueue
time; since `updatePdfFile` replaces records rather than mutating them, the
captured object is a snapshot. -/
structure DlState where
  maxConcurrentDownloads : Nat
  activeDownloads : List (Nat × ActiveDownload)
  queue : List (Nat × PdfFile)
  cancelledJobs : List Nat
deriving DecidableEq, Repr

/-- Downloader as constructed (maxConcurrentDownloads = 3, everything empty). -/
def DlState.init : DlState := ⟨3, [], [], []⟩

/-- Whole system: the record store, the downloader, and the append-only log
of fetches the drain loop has started (one entry per `downloadFile`
invocation, in invocation order). -/
structure Sys where
  store : MemStorage
  dl : DlState
  spawned : List (Nat × PdfFile)
deriving DecidableEq, Repr

def Sys.init (store : MemStorage) : Sys := ⟨store, DlState.init, []⟩

/-- Synchronous prefix of `Downloader.downloadFile` (downloader.ts lines
87-90): the un-awaited call executes `storage.updatePdfFile(file.id,
{ status: "downloading", progress: 0 })` synchronously and then suspends at
the first `await`; in particular `activeDownloads` is NOT yet touched when
control returns to the caller.  The spawn log records the started fetch. -/
def downloadFileStart (s : Sys) (jobId : Nat) (file : PdfFile) : Sys :=
  let st := (s.store.updatePdfFile file.id
    { status := some "downloading", progress := some 0 }).2
  { s with store := st, spawned := s.spawned ++ [(jobId, file)] }

/-- One-entry-per-iteration drain loop of `Downloader.processQueue`
(downloader.ts lines 66-80), structurally recursive on fuel.  Each
iteration re-reads `activeDownloads.size` (which cannot change during the
synchronous loop), shifts the head entry, discards it if its job is
cancelled, and otherwise fires `downloadFile` (contributing only its
synchronous prefix). -/
def processQueueGo : Nat → Sys → Sys
  | 0, s => s
  | fuel + 1, s =>
    if s.dl.activeDownloads.length < s.dl.maxConcurrentDownloads then
      match s.dl.queue with
      | [] => s
      | (jobId, file) :: rest =>
        let s1 : Sys := { s with dl := { s.dl with queue := rest } }
        if s.dl.cancelledJobs.contains jobId then processQueueGo fuel s1
        else processQueueGo fuel (downloadFileStart s1 jobId file)
    else s

/-- `Downloader.processQueue`: the loop consumes one queue entry per
iteration and nothing inside it appends, so the initial queue length is
enough fuel to drain until the loop condition fails. -/
def processQueue (s : Sys) : Sys :=
  processQueueGo s.dl.queue.length s

/-- Loop body of `Downloader.downloadBatch` (downloader.ts lines 51-57):
set one file to "queued" and push one entry onto the queue tail. -/
def enqueueStep (jobId : Nat) (acc : Sys) (file : PdfFile) : Sys :=
  let st' := (acc.store.updatePdfFile file.id { status := some "queued" }).2
  { acc with store := st',
             dl := { acc.dl with queue := acc.dl.queue ++ [(jobId, file)] } }

/-- Enqueue phase of `Downloader.downloadBatch` (downloader.ts lines 46-57):
set the job to "in progress", then for each file set it to "queued" and push
one entry to the queue tail. -/
def enqueueBatch (s : Sys) (jobId : Nat) (files : List PdfFile) : Sys :=
  let st := (s.store.updateDownloadJob jobId { status := some "in progress" }).2
  files.foldl (enqueueStep jobId) { s with store := st }

/-- `Downloader.downloadBatch` (downloader.ts lines 46-61): enqueue, then
drain. -/
def downloadBatch (s : Sys) (jobId : Nat) (files : List PdfFile) : Sys :=
  processQueue (enqueueBatch s jobId files)

/-- `Downloader.cancelDownload` (downloader.ts lines 345-360): record the
job in the cancelled set, filter its entries out of the pending queue, and
mark the job cancelled with a completion timestamp.  In-flight downloads
are left to finish naturally. -/
def cancelDownload (s : Sys) (jobId : Nat) (now : Nat) : Sys :=
  let cancelled :=
    if s.dl.cancelledJobs.contains jobId then s.dl.cancelledJobs
    else s.dl.cancelledJobs ++ [jobId]
  let dl := { s.dl with
    cancelledJobs := cancelled,
    queue := s.dl.queue.filter (fun item => item.1 != jobId) }
  let st := (s.store.updateDownloadJob jobId
    { status := some "cancelled", completedAt := some (some now) }).2
  { s with store := st, dl := dl }

/-- Segment of `downloadFile` between its first `await` and the `fetch`
call (downloader.ts lines 92-110): register the ActiveDownload record with
zero bytes and the start timestamp; the fetch is then in flight.  The temp
file path (a Date.now-prefixed name) lives in the filesystem, which is
abstracted into `ArchiveEnv`. -/
def downloadFileSeg1 (s : Sys) (jobId : Nat) (file : PdfFile) (startTime : Nat) : Sys :=
  { s with dl := { s.dl with
      activeDownloads :=
        mapSet s.dl.activeDownloads file.id ⟨jobId, file.id, 0, startTime⟩ } }

/-- Environment of `completeJob`: the temp-directory listing, whether a
listed staged file exists with non-zero size, the zip outcome, the zip's
byte size, an error message for a failed zip, and the wall clock. -/
structure ArchiveEnv where
  tempDirListing : List String
  validTemp : String → Bool
  zipOk : Bool
  zipSizeBytes : Nat
  zipErrMsg : String
  now : Nat

/-- Staged-artifact resolution of `completeJob` (downloader.ts lines
256-272): for each completed file, among the temp entries whose name
contains the original filename, push the first one that exists with
non-zero size. -/
def resolveTempFiles (env : ArchiveEnv) (completedFiles : List PdfFile) : List String :=
  completedFiles.foldl (fun acc f =>
    match ((env.tempDirListing.filter
        (fun t => strContains t f.filename)).find? (fun t => env.validTemp t)) with
    | some t => acc ++ [t]
    | none => acc) []

/-- Catch branch of `completeJob` (downloader.ts lines 323-338): mark the
job failed with a completion timestamp and append a "Download failed"
history entry. -/
def completeJobFail (env : ArchiveEnv) (s : Sys) (jobId : Nat) (msg : String) : Sys :=
  let st1 := (s.store.updateDownloadJob jobId
    { status := some "failed", completedAt := some (some env.now) }).2
  let st2 := (st1.createHistoryEntry env.now "Download failed"
    ("Failed to complete download job " ++ toString jobId ++ ": " ++ msg) 0).2
  { s with store := st2 }

/-- Selection of the job's completed files in `completeJob` (downloader.ts
lines 222-250): all stored files matching the job name, filtered to status
"completed". -/
def jobCompletedFiles (st : MemStorage) (jobName : String) : List PdfFile :=
  (st.getPdfFiles.filter (fun f => matchesJobName jobName f.filename)).filter
    (fun f => f.status == "completed")

/-- `Downloader.completeJob` (downloader.ts lines 211-339).  Any throw
inside the try block (missing job, empty artifact list, zip failure) lands
in the catch branch; on success the job is marked completed, an archive
record is persisted and a history entry appended.  Note there is no status
guard: the transition to "creating zip" is unconditional. -/
def completeJob (env : ArchiveEnv) (s : Sys) (jobId : Nat) : Sys :=
  match s.store.getDownloadJob jobId with
  | none => completeJobFail env s jobId ("Job " ++ toString jobId ++ " not found")
  | some job =>
    let st1 := (s.store.updateDownloadJob jobId { status := some "creating zip" }).2
    let s1 : Sys := { s with store := st1 }
    let completedFiles := jobCompletedFiles st1 job.name
    let zipFileName := "jfk-docs-" ++ wsToDashLower job.name ++ ".zip"
    let tempFiles := resolveTempFiles env completedFiles
    if tempFiles.isEmpty then
      completeJobFail env s1 jobId "No files found to include in zip"
    else if env.zipOk = false then
      completeJobFail env s1 jobId env.zipErrMsg
    else
      let zipSize := formatBytes env.zipSizeBytes
      let st2 := (st1.updateDownloadJob jobId
        { status := some "completed", completedAt := some (some env.now),
          size := some (some zipSize) }).2
      let st3 := (st2.createCompletedDownload env.now zipFileName
        (toString tempFiles.length ++ " PDFs (" ++ job.name ++ ")")
        zipSize ("downloads/" ++ zipFileName)).2
      let st4 := (st3.createHistoryEntry env.now "Download completed"
        ("Completed download job: " ++ job.name ++ " with "
          ++ toString tempFiles.length ++ " files") tempFiles.length).2
      { s1 with store := st4 }

/-- Outcome of an awaited `fetch` plus the resulting staged file: HTTP
success flag, the buffer length, and the size `fs.statSync` reports for
the written temp file. -/
structure FetchResult where
  ok : Bool
  bytes : Nat
  statSize : Nat
deriving DecidableEq, Repr

/-- Catch branch of `downloadFile` (downloader.ts lines 192-203): mark the
file failed, drop it from the active set, and re-drain the queue. -/
def downloadFileCatch (s : Sys) (file : PdfFile) : Sys :=
  let st := (s.store.updatePdfFile file.id
    { status := some "failed", progress := some 0 }).2
  let s' : Sys := { s with
    store := st,
    dl := { s.dl with activeDownloads := mapDelete s.dl.activeDownloads file.id } }
  processQueue s'

/-- Tail of `downloadFile`'s success path (downloader.ts lines 172-191):
read the owning job, set its counter to the read value plus one (also
refreshing the size text), invoke `completeJob` when the post-increment
value reaches the total, drop the file from the active set, and re-drain
the queue. -/
def successFinish (env : ArchiveEnv) (s3 : Sys) (jobId fileId : Nat) : Sys :=
  let s4 :=
    match s3.store.getDownloadJob jobId with
    | none => s3
    | some job =>
      let st4 := (s3.store.updateDownloadJob jobId
        { downloadedFiles := some (job.downloadedFiles + 1),
          size := some (some (jsOr job.size "Calculating...")) }).2
      let s4' : Sys := { s3 with store := st4 }
      if job.downloadedFiles + 1 ≥ job.totalFiles then completeJob env s4' jobId
      else s4'
  processQueue { s4 with
    dl := { s4.dl with activeDownloads := mapDelete s4.dl.activeDownloads fileId } }

/-- Continuation of `downloadFile` from the resolution of `await fetch`
onward (downloader.ts lines 112-203), run to completion without
interleaving.  A non-ok response throws into the catch branch; a cancelled
job reverts the file to "ready" and returns without draining; otherwise the
success path records bytes, marks the file completed (backfilling an
unknown size), and finishes through `successFinish`. -/
def downloadFileAfterFetch (env : ArchiveEnv) (fr : FetchResult) (s : Sys)
    (jobId : Nat) (file : PdfFile) : Sys :=
  if fr.ok = false then
    downloadFileCatch s file
  else if s.dl.cancelledJobs.contains jobId then
    let st := (s.store.updatePdfFile file.id
      { status := some "ready", progress := some 0 }).2
    { s with
      store := st,
      dl := { s.dl with activeDownloads := mapDelete s.dl.activeDownloads file.id } }
  else
    let active1 := s.dl.activeDownloads.map (fun p =>
      if p.1 == file.id then (p.1, { p.2 with bytesDownloaded := fr.bytes }) else p)
    let dl1 := { s.dl with activeDownloads := active1 }
    let st1 := (s.store.updatePdfFile file.id { progress := some 100 }).2
    let st2 := (st1.updatePdfFile file.id
      { status := some "completed", progress := some 100 }).2
    let fileSize := formatBytes fr.statSize
    let st3 := if file.size == some "Unknown" then
        (st2.updatePdfFile file.id { size := some (some fileSize) }).2
      else st2
    let s3 : Sys := { s with store := st3, dl := dl1 }
    successFinish env s3 jobId file.id

/-- Retry endpoint of routes.ts lines 368-412: reset the job to "queued"
with a zero counter, re-select its files by the name-encoded numeric range,
hand them to `downloadBatch`, and append a history entry. -/
def retryDownload (s : Sys) (jobId : Nat) (now : Nat) : Sys :=
  match s.store.getDownloadJob jobId with
  | none => s
  | some job =>
    let st1 := (s.store.updateDownloadJob jobId
      { status := some "queued", downloadedFiles := some 0 }).2
    let filesToDownload := st1.getPdfFiles.filter
      (fun f => retryMatchesJobName job.name f.filename)
    let s1 := downloadBatch { s with store := st1 } jobId filesToDownload
    let st2 := (s1.store.createHistoryEntry now "Download restarted"
      ("Restarted download job: " ++ job.name)
      (filesToDownload.length : Int)).2
    { s1 with store := st2 }

/-- Loop body of `Downloader.getCurrentSpeed` (downloader.ts lines
371-378): accumulate `(totalSpeed, activeCount)`, skipping downloads whose
elapsed time is not positive. -/
def speedStep (now : Nat) (p : ℚ × Nat) (d : ActiveDownload) : ℚ × Nat :=
  let elapsedSeconds : ℚ := ((now : ℚ) - (d.startTime : ℚ)) / 1000
  if 0 < elapsedSeconds then
    (p.1 + (d.bytesDownloaded : ℚ) / elapsedSeconds, p.2 + 1)
  else p

/-- `Downloader.getCurrentSpeed` (downloader.ts lines 366-394), over the
values of the activeDownloads map: accumulate the instantaneous rate of
every download with positive elapsed time, return "0 KB/s" when there are
none, else format the arithmetic mean with base-1024 unit thresholds. -/
def getCurrentSpeed (now : Nat) (downloads : List ActiveDownload) : String :=
  let acc := downloads.foldl (speedStep now) ((0 : ℚ), (0 : Nat))
  if acc.2 = 0 then "0 KB/s"
  else
    let avgSpeed := acc.1 / (acc.2 : ℚ)
    if avgSpeed < 1024 then toFixed1 avgSpeed ++ " B/s"
    else if avgSpeed < 1024 * 1024 then toFixed1 (avgSpeed / 1024) ++ " KB/s"
    else toFixed1 (avgSpeed / (1024 * 1024)) ++ " MB/s"

/-! ### Specification-side definitions for throughput (spec §4.5)

These follow the words of the specification, to be compared with
`getCurrentSpeed` above, which follows the source. -/

/-- In-flight downloads with positive elapsed time; per the spec,
zero-elapsed entries are "not yet measurable" and excluded. -/
def measurableDownloads (now : Nat) (ds : List ActiveDownload) : List ActiveDownload :=
  ds.filter (fun d => decide ((0 : ℚ) < ((now : ℚ) - (d.startTime : ℚ)) / 1000))

/-- Instantaneous rate of one in-flight download: bytes transferred over
elapsed seconds. -/
def instRate (now : Nat) (d : ActiveDownload) : ℚ :=
  (d.bytesDownloaded : ℚ) / (((now : ℚ) - (d.startTime : ℚ)) / 1000)

/-- Arithmetic mean of all measurable in-flight rates. -/
def meanRate (now : Nat) (ds : List ActiveDownload) : ℚ :=
  ((measurableDownloads now ds).map (instRate now)).sum
    / ((measurableDownloads now ds).length : ℚ)

/-- Throughput string as the specification words it: "0 KB/s" when there is
no in-flight download with positive elapsed time, else the mean rate
formatted with base-1024 thresholds (below 1024 as B/s, below 1024² as
KB/s, otherwise MB/s). -/
def claimedSpeedString (now : Nat) (ds : List ActiveDownload) : String :=
  if measurableDownloads now ds = [] then "0 KB/s"
  else
    let avg := meanRate now ds
    if avg < 1024 then toFixed1 avg ++ " B/s"
    else if avg < 1024 * 1024 then toFixed1 (avg / 1024) ++ " KB/s"
    else toFixed1 (avg / (1024 * 1024)) ++ " MB/s"

/-! ### Concrete executions used to settle the claims

Each is a deterministic run of the model's step functions; the step order
matches a realizable event-loop schedule (see the module comment). -/

/-- Fetch result of a successful 1000-byte download. -/
def frA : FetchResult := ⟨true, 1000, 1000⟩

/-- Archive environment with two valid staged files and a working zipper. -/
def envA : ArchiveEnv :=
  ⟨["1000-doc1.pdf", "1000-doc2.pdf"], fun _ => true, true, 512, "zip error", 5000⟩

/-- Store with four ready files and one four-file job ("JFK Records 1-4"). -/
def batchStore : MemStorage :=
  let p1 := MemStorage.empty.createPdfFile 0 "u1" "doc1.pdf" (some "Unknown") "ready"
  let p2 := p1.2.createPdfFile 0 "u2" "doc2.pdf" (some "Unknown") "ready"
  let p3 := p2.2.createPdfFile 0 "u3" "doc3.pdf" (some "Unknown") "ready"
  let p4 := p3.2.createPdfFile 0 "u4" "doc4.pdf" (some "Unknown") "ready"
  (p4.2.createDownloadJob 0 "JFK Records 1-4" 4 none "queued").2

/-- One submission of all four files of `batchStore` as job 1 on a fresh
downloader. -/
def batchRun : Sys := downloadBatch (Sys.init batchStore) 1 batchStore.getPdfFiles

/-- Store with two ready files and one two-file job ("JFK Records 1-2"). -/
def twoFileStore : MemStorage :=
  let p1 := MemStorage.empty.createPdfFile 0 "u1" "doc1.pdf" (some "Unknown") "ready"
  let p2 := p1.2.createPdfFile 0 "u2" "doc2.pdf" (some "Unknown") "ready"
  (p2.2.createDownloadJob 0 "JFK Records 1-2" 2 none "queued").2

/-- The two file records of `twoFileStore` as createPdfFile returns them. -/
def fileA : PdfFile := ⟨1, "u1", "doc1.pdf", some "Unknown", "ready", 0, 0⟩

def fileB : PdfFile := ⟨2, "u2", "doc2.pdf", some "Unknown", "ready", 0, 0⟩

/-- Snapshot of file 1 as the retry endpoint re-reads it after its first
download completed (size backfilled, status completed). -/
def snapA : PdfFile := ⟨1, "u1", "doc1.pdf", some "1000 B", "completed", 100, 0⟩

/-- Snapshot of file 2 as the retry endpoint re-reads it while its first
download is still in flight. -/
def snapB : PdfFile := ⟨2, "u2", "doc2.pdf", some "Unknown", "downloading", 0, 0⟩

/-- Retry interleaving, step 1: submit both files as job 1. -/
def retryTrace1 : Sys := downloadBatch (Sys.init twoFileStore) 1 [fileA, fileB]

/-- Step 2: both spawned continuations register their active downloads and
issue their fetches. -/
def retryTrace2 : Sys :=
  downloadFileSeg1 (downloadFileSeg1 retryTrace1 1 fileA 100) 1 fileB 100

/-- Step 3: file 1's fetch succeeds. -/
def retryTrace3 : Sys := downloadFileAfterFetch envA frA retryTrace2 1 fileA

/-- Step 4: the retry endpoint is invoked for job 1 while file 2's original
fetch is still in flight. -/
def retryTrace4 : Sys := retryDownload retryTrace3 1 2000

/-- Step 5: file 2's original (pre-retry) fetch succeeds. -/
def retryTrace5 : Sys := downloadFileAfterFetch envA frA retryTrace4 1 fileB

/-- Step 6: file 1's re-submitted fetch succeeds (its enqueue snapshot is
`snapA`). -/
def retryTrace6 : Sys := downloadFileAfterFetch envA frA retryTrace5 1 snapA

/-- Step 7: file 2's re-submitted fetch succeeds (its enqueue snapshot is
`snapB`). -/
def retryTrace7 : Sys := downloadFileAfterFetch envA frA retryTrace6 1 snapB

/-- Store with five ready files, a three-file job 1 ("JFK Records 1-3") and
a two-file job 2 ("JFK Records 4-5"). -/
def fiveFileStore : MemStorage :=
  let p1 := MemStorage.empty.createPdfFile 0 "u1" "doc1.pdf" (some "Unknown") "ready"
  let p2 := p1.2.createPdfFile 0 "u2" "doc2.pdf" (some "Unknown") "ready"
  let p3 := p2.2.createPdfFile 0 "u3" "doc3.pdf" (some "Unknown") "ready"
  let p4 := p3.2.createPdfFile 0 "u4" "doc4.pdf" (some "Unknown") "ready"
  let p5 := p4.2.createPdfFile 0 "u5" "doc5.pdf" (some "Unknown") "ready"
  let j1 := (p5.2.createDownloadJob 0 "JFK Records 1-3" 3 none "queued").2
  (j1.createDownloadJob 0 "JFK Records 4-5" 2 none "queued").2

def fileG1 : PdfFile := ⟨1, "u1", "doc1.pdf", some "Unknown", "ready", 0, 0⟩

def fileG2 : PdfFile := ⟨2, "u2", "doc2.pdf", some "Unknown", "ready", 0, 0⟩

def fileG3 : PdfFile := ⟨3, "u3", "doc3.pdf", some "Unknown", "ready", 0, 0⟩

def fileG4 : PdfFile := ⟨4, "u4", "doc4.pdf", some "Unknown", "ready", 0, 0⟩

def fileG5 : PdfFile := ⟨5, "u5", "doc5.pdf", some "Unknown", "ready", 0, 0⟩

/-- Cancellation scenario, step 1: job 1's three files are submitted and
begin downloading. -/
def cancelTrace1 : Sys := downloadBatch (Sys.init fiveFileStore) 1 [fileG1, fileG2, fileG3]

/-- Step 2: all three continuations register, filling the three slots. -/
def cancelTrace2 : Sys :=
  downloadFileSeg1 (downloadFileSeg1 (downloadFileSeg1 cancelTrace1 1 fileG1 50)
    1 fileG2 60) 1 fileG3 70

/-- Step 3: job 2's two files are submitted; capacity is full, so both stay
in the pending queue. -/
def cancelTrace3 : Sys := downloadBatch cancelTrace2 2 [fileG4, fileG5]

/-- Step 4: job 2 is cancelled before any of its entries is dequeued. -/
def cancelTrace4 : Sys := cancelDownload cancelTrace3 2 900

/-- Current store record of file 4 in the mixed-state scenario: its first
download (for job 1) already completed. -/
def mixFile : PdfFile := ⟨4, "u4", "doc4.pdf", some "1000 B", "completed", 100, 0⟩

/-- Queue snapshot of file 4 as job 3 enqueued it (before its job-1 copy
finished). -/
def mixSnap : PdfFile := ⟨4, "u4", "doc4.pdf", some "Unknown", "queued", 0, 0⟩

/-- Store for the non-queued-dequeue scenario: two files downloading for
job 1, file 4 already completed, while job 3's queue entry for file 4 is
still pending. -/
def mixStore : MemStorage :=
  { pdfFiles := [(1, ⟨1, "u1", "doc1.pdf", some "Unknown", "downloading", 0, 0⟩),
                 (2, ⟨2, "u2", "doc2.pdf", some "Unknown", "downloading", 0, 0⟩),
                 (4, mixFile)],
    downloadJobs := [(1, ⟨1, "JFK Records 1-2", 2, 0, none, "in progress", 0, none⟩),
                     (3, ⟨3, "JFK Records 4-4", 1, 0, none, "in progress", 0, none⟩)],
    completedDownloads := [], historyEntries := [],
    pdfFilesCounter := 5, downloadJobsCounter := 4,
    completedDownloadsCounter := 1, historyCounter := 1 }

/-- System where the head queue entry's file is no longer `queued`: its
status in the store is "completed".  Reachable by submitting file 4 under
two jobs while capacity was saturated and letting the first copy finish. -/
def mixSys : Sys :=
  { store := mixStore,
    dl := { maxConcurrentDownloads := 3,
            activeDownloads := [(1, ⟨1, 1, 0, 10⟩), (2, ⟨1, 2, 0, 20⟩)],
            queue := [(3, mixSnap)], cancelledJobs := [] },
    spawned := [] }

/-- Archive environment for the re-invocation scenario. -/
def envB : ArchiveEnv :=
  ⟨["1000-doc1.pdf", "1000-doc2.pdf", "1000-doc3.pdf"], fun _ => true, true,
    600, "zip error", 6000⟩

/-- Store of a job that already completed (archive record and history entry
present, `downloadedFiles = totalFiles = 2`) while a third matching file is
still downloading. -/
def dupStore : MemStorage :=
  { pdfFiles := [(1, ⟨1, "u1", "doc1.pdf", some "1000 B", "completed", 100, 0⟩),
                 (2, ⟨2, "u2", "doc2.pdf", some "1000 B", "completed", 100, 0⟩),
                 (3, ⟨3, "u3", "doc3.pdf", some "Unknown", "downloading", 0, 0⟩)],
    downloadJobs := [(1, ⟨1, "JFK Records 1-3", 2, 2, some "2.0 KB", "completed", 0,
                      some 5000⟩)],
    completedDownloads := [(1, ⟨1, "jfk-docs-jfk-records-1-3.zip",
      "2 PDFs (JFK Records 1-3)", "2.0 KB",
      "downloads/jfk-docs-jfk-records-1-3.zip", 5000⟩)],
    historyEntries := [(1, ⟨1, 5000, "Download completed",
      "Completed download job: JFK Records 1-3 with 2 files", 2⟩)],
    pdfFilesCounter := 4, downloadJobsCounter := 2,
    completedDownloadsCounter := 2, historyCounter := 2 }

/-- Enqueue snapshot of the third file of `dupStore`. -/
def dupSnap : PdfFile := ⟨3, "u3", "doc3.pdf", some "Unknown", "queued", 0, 0⟩

/-- System around `dupStore` with the third file's fetch in flight. -/
def dupSys : Sys :=
  { store := dupStore,
    dl := { maxConcurrentDownloads := 3,
            activeDownloads := [(3, ⟨1, 3, 0, 30⟩)],
            queue := [], cancelledJobs := [] },
    spawned := [] }

/-! ## Generic lemmas about the Map model -/

theorem strData_append (a b : String) : (a ++ b).data = a.data ++ b.data := rfl

theorem mapGet_nil {α : Type} (k : Nat) : mapGet ([] : List (Nat × α)) k = none := rfl

theorem mapGet_cons {α : Type} (p : Nat × α) (m : List (Nat × α)) (k : Nat) :
    mapGet (p :: m) k = if p.1 = k then some p.2 else mapGet m k := by
  by_cases hp : p.1 = k
  · rw [if_pos hp]
    unfold mapGet
    rw [List.find?_cons_of_pos _ (by simp [hp])]
    rfl
  · rw [if_neg hp]
    unfold mapGet
    rw [List.find?_cons_of_neg _ (by simp [hp])]

theorem mapGet_isSome_iff_find {α : Type} (m : List (Nat × α)) (k : Nat) :
    (mapGet m k).isSome = (m.find? (fun q => q.1 == k)).isSome := by
  simp [mapGet]

theorem mapGet_map_replace_self {α : Type} (m : List (Nat × α)) (k : Nat) (v : α)
    (h : (mapGet m k).isSome) :
    mapGet (m.map (fun q => if q.1 == k then (k, v) else q)) k = some v := by
  induction m with
  | nil => simp [mapGet] at h
  | cons q qs ih =>
    rw [mapGet_cons] at h
    rw [List.map_cons]
    by_cases hq : q.1 = k
    · have h1 : (if q.1 == k then (k, v) else q) = (k, v) := by simp [hq]
      rw [h1, mapGet_cons, if_pos rfl]
    · have h1 : (if q.1 == k then (k, v) else q) = q := by simp [hq]
      rw [h1, mapGet_cons, if_neg hq]
      rw [if_neg hq] at h
      exact ih h

theorem mapGet_map_replace_ne {α : Type} (m : List (Nat × α)) (k k' : Nat) (v : α)
    (h : k' ≠ k) :
    mapGet (m.map (fun q => if q.1 == k then (k, v) else q)) k' = mapGet m k' := by
  induction m with
  | nil => rfl
  | cons q qs ih =>
    rw [List.map_cons, mapGet_cons]
    by_cases hq : q.1 = k
    · have h1 : (if q.1 == k then (k, v) else q) = (k, v) := by simp [hq]
      have h2 : ¬ (k = k') := fun hh => h hh.symm
      have h3 : ¬ (q.1 = k') := by rw [hq]; exact h2
      rw [h1, mapGet_cons, if_neg h2, if_neg h3, ih]
    · have h1 : (if q.1 == k then (k, v) else q) = q := by simp [hq]
      rw [h1, mapGet_cons]
      by_cases hq' : q.1 = k'
      · rw [if_pos hq', if_pos hq']
      · rw [if_neg hq', if_neg hq', ih]

theorem mapGet_append_single_ne {α : Type} (m : List (Nat × α)) (k k' : Nat) (v : α)
    (h : k' ≠ k) : mapGet (m ++ [(k, v)]) k' = mapGet m k' := by
  induction m with
  | nil =>
    have h2 : ¬ (k = k') := fun hh => h hh.symm
    simp [mapGet_cons, mapGet, h2]
  | cons q qs ih =>
    rw [List.cons_append, mapGet_cons, mapGet_cons]
    by_cases hq : q.1 = k'
    · simp [hq]
    · simp [hq, ih]

theorem mapGet_none_iff_find {α : Type} (m : List (Nat × α)) (k : Nat) :
    mapGet m k = none ↔ m.find? (fun q => q.1 == k) = none := by
  simp [mapGet]

theorem mapSet_of_present {α : Type} (m : List (Nat × α)) (k : Nat) (v : α)
    (h : (mapGet m k).isSome) :
    mapSet m k v = m.map (fun q => if q.1 == k then (k, v) else q) := by
  rw [mapGet_isSome_iff_find] at h
  simp [mapSet, h]

theorem mapSet_of_absent {α : Type} (m : List (Nat × α)) (k : Nat) (v : α)
    (h : mapGet m k = none) : mapSet m k v = m ++ [(k, v)] := by
  rw [mapGet_none_iff_find] at h
  simp [mapSet, h]

theorem mapGet_mapSet_self {α : Type} (m : List (Nat × α)) (k : Nat) (v : α)
    (h : (mapGet m k).isSome) : mapGet (mapSet m k v) k = some v := by
  rw [mapSet_of_present m k v h]
  exact mapGet_map_replace_self m k v h

theorem mapGet_mapSet_ne {α : Type} (m : List (Nat × α)) (k k' : Nat) (v : α)
    (h : k' ≠ k) : mapGet (mapSet m k v) k' = mapGet m k' := by
  rcases ho : mapGet m k with _ | w
  · rw [mapSet_of_absent m k v ho]
    exact mapGet_append_single_ne m k k' v h
  · have hs : (mapGet m k).isSome := by rw [ho]; rfl
    rw [mapSet_of_present m k v hs]
    exact mapGet_map_replace_ne m k k' v h

theorem mapGet_mapSet_isSome {α : Type} (m : List (Nat × α)) (k k' : Nat) (v : α)
    (h : (mapGet m k').isSome) : (mapGet (mapSet m k v) k').isSome := by
  by_cases hk : k' = k
  · subst hk
    rw [mapGet_mapSet_self m k' v h]; rfl
  · rw [mapGet_mapSet_ne m k k' v hk]; exact h

theorem mapSet_fresh_append {α : Type} (m : List (Nat × α)) (k : Nat) (v : α)
    (h : ∀ p ∈ m, p.1 < k) : mapSet m k v = m ++ [(k, v)] := by
  apply mapSet_of_absent
  rw [mapGet_none_iff_find, List.find?_eq_none]
  intro p hp
  have := h p hp
  simp
  omega

/-! ## Frame lemmas for the record store -/

theorem updatePdfFile_frame (s : MemStorage) (id : Nat) (u : PdfFileUpdate) :
    (s.updatePdfFile id u).2.downloadJobs = s.downloadJobs ∧
    (s.updatePdfFile id u).2.completedDownloads = s.completedDownloads ∧
    (s.updatePdfFile id u).2.historyEntries = s.historyEntries ∧
    (s.updatePdfFile id u).2.downloadJobsCounter = s.downloadJobsCounter ∧
    (s.updatePdfFile id u).2.completedDownloadsCounter = s.completedDownloadsCounter ∧
    (s.updatePdfFile id u).2.historyCounter = s.historyCounter ∧
    (s.updatePdfFile id u).2.pdfFilesCounter = s.pdfFilesCounter := by
  unfold MemStorage.updatePdfFile
  split <;> simp

theorem updateDownloadJob_frame (s : MemStorage) (id : Nat) (u : DownloadJobUpdate) :
    (s.updateDownloadJob id u).2.pdfFiles = s.pdfFiles ∧
    (s.updateDownloadJob id u).2.completedDownloads = s.completedDownloads ∧
    (s.updateDownloadJob id u).2.historyEntries = s.historyEntries ∧
    (s.updateDownloadJob id u).2.pdfFilesCounter = s.pdfFilesCounter ∧
    (s.updateDownloadJob id u).2.completedDownloadsCounter = s.completedDownloadsCounter ∧
    (s.updateDownloadJob id u).2.historyCounter = s.historyCounter ∧
    (s.updateDownloadJob id u).2.downloadJobsCounter = s.downloadJobsCounter := by
  unfold MemStorage.updateDownloadJob
  split <;> simp

theorem updateDownloadJob_counter_frame (s : MemStorage) (id : Nat)
    (u : DownloadJobUpdate) (hu : u.downloadedFiles = none) (k : Nat) :
    (mapGet (s.updateDownloadJob id u).2.downloadJobs k).map (fun j => j.downloadedFiles)
      = (mapGet s.downloadJobs k).map (fun j => j.downloadedFiles) := by
  unfold MemStorage.updateDownloadJob
  rcases h : mapGet s.downloadJobs id with _ | j
  · rfl
  · simp only []
    by_cases hk : k = id
    · subst hk
      rw [mapGet_mapSet_self _ _ _ (by rw [h]; rfl), h]
      simp [DownloadJob.applyUpdate, hu]
    · rw [mapGet_mapSet_ne _ _ _ _ hk]

theorem updateDownloadJob_other (s : MemStorage) (id : Nat) (u : DownloadJobUpdate)
    (k : Nat) (hk : k ≠ id) :
    mapGet (s.updateDownloadJob id u).2.downloadJobs k = mapGet s.downloadJobs k := by
  unfold MemStorage.updateDownloadJob
  rcases h : mapGet s.downloadJobs id with _ | j
  · rfl
  · simp only []
    rw [mapGet_mapSet_ne _ _ _ _ hk]

theorem updateDownloadJob_self (s : MemStorage) (id : Nat) (u : DownloadJobUpdate)
    (j : DownloadJob) (h : mapGet s.downloadJobs id = some j) :
    mapGet (s.updateDownloadJob id u).2.downloadJobs id = some (j.applyUpdate u) := by
  unfold MemStorage.updateDownloadJob
  rw [h]
  simp only []
  exact mapGet_mapSet_self _ _ _ (by rw [h]; rfl)

theorem updatePdfFile_other (s : MemStorage) (id : Nat) (u : PdfFileUpdate)
    (k : Nat) (hk : k ≠ id) :
    mapGet (s.updatePdfFile id u).2.pdfFiles k = mapGet s.pdfFiles k := by
  unfold MemStorage.updatePdfFile
  rcases h : mapGet s.pdfFiles id with _ | f
  · rfl
  · simp only []
    rw [mapGet_mapSet_ne _ _ _ _ hk]

theorem updatePdfFile_self (s : MemStorage) (id : Nat) (u : PdfFileUpdate)
    (f : PdfFile) (h : mapGet s.pdfFiles id = some f) :
    mapGet (s.updatePdfFile id u).2.pdfFiles id = some (f.applyUpdate u) := by
  unfold MemStorage.updatePdfFile
  rw [h]
  simp only []
  exact mapGet_mapSet_self _ _ _ (by rw [h]; rfl)

theorem updatePdfFile_isSome (s : MemStorage) (id : Nat) (u : PdfFileUpdate)
    (k : Nat) (h : (mapGet s.pdfFiles k).isSome) :
    (mapGet (s.updatePdfFile id u).2.pdfFiles k).isSome := by
  by_cases hk : k = id
  · subst hk
    rcases ho : mapGet s.pdfFiles k with _ | f
    · rw [ho] at h; simp at h
    · rw [updatePdfFile_self s k u f ho]; rfl
  · rw [updatePdfFile_other s id u k hk]; exact h

theorem createHistoryEntry_append (s : MemStorage) (now : Nat)
    (action details : String) (n : Int)
    (hwf : ∀ p ∈ s.historyEntries, p.1 < s.historyCounter) :
    (s.createHistoryEntry now action details n).2.historyEntries =
      s.historyEntries ++
        [(s.historyCounter, ⟨s.historyCounter, now, action, details, n⟩)] := by
  unfold MemStorage.createHistoryEntry
  simp only []
  rw [mapSet_fresh_append _ _ _ hwf]

theorem createHistoryEntry_frame (s : MemStorage) (now : Nat)
    (action details : String) (n : Int) :
    (s.createHistoryEntry now action details n).2.pdfFiles = s.pdfFiles ∧
    (s.createHistoryEntry now action details n).2.downloadJobs = s.downloadJobs ∧
    (s.createHistoryEntry now action details n).2.completedDownloads
      = s.completedDownloads := by
  unfold MemStorage.createHistoryEntry
  simp

theorem createCompletedDownload_frame (s : MemStorage) (now : Nat)
    (filename contents size path : String) :
    (s.createCompletedDownload now filename contents size path).2.pdfFiles = s.pdfFiles ∧
    (s.createCompletedDownload now filename contents size path).2.downloadJobs
      = s.downloadJobs ∧
    (s.createCompletedDownload now filename contents size path).2.historyEntries
      = s.historyEntries ∧
    (s.createCompletedDownload now filename contents size path).2.historyCounter
      = s.historyCounter := by
  unfold MemStorage.createCompletedDownload
  simp

theorem createCompletedDownload_append (s : MemStorage) (now : Nat)
    (filename contents size path : String)
    (hwf : ∀ p ∈ s.completedDownloads, p.1 < s.completedDownloadsCounter) :
    (s.createCompletedDownload now filename contents size path).2.completedDownloads =
      s.completedDownloads ++
        [(s.completedDownloadsCounter,
          ⟨s.completedDownloadsCounter, filename, contents, size, path, now⟩)] := by
  unfold MemStorage.createCompletedDownload
  simp only []
  rw [mapSet_fresh_append _ _ _ hwf]

theorem createHistoryEntry_len (s : MemStorage) (now : Nat)
    (action details : String) (n : Int)
    (hwf : ∀ p ∈ s.historyEntries, p.1 < s.historyCounter) :
    (s.createHistoryEntry now action details n).2.historyEntries.length
      = s.historyEntries.length + 1 := by
  rw [createHistoryEntry_append s now action details n hwf]
  simp

/-! ## Frame lemmas for the downloader steps -/

theorem downloadFileStart_dl (s : Sys) (jobId : Nat) (file : PdfFile) :
    (downloadFileStart s jobId file).dl = s.dl := rfl

theorem downloadFileStart_spawned (s : Sys) (jobId : Nat) (file : PdfFile) :
    (downloadFileStart s jobId file).spawned = s.spawned ++ [(jobId, file)] := rfl

theorem downloadFileStart_jobs (s : Sys) (jobId : Nat) (file : PdfFile) :
    (downloadFileStart s jobId file).store.downloadJobs = s.store.downloadJobs :=
  (updatePdfFile_frame s.store file.id _).1

theorem downloadFileStart_history (s : Sys) (jobId : Nat) (file : PdfFile) :
    (downloadFileStart s jobId file).store.historyEntries = s.store.historyEntries :=
  (updatePdfFile_frame s.store file.id _).2.2.1

theorem downloadFileStart_completed (s : Sys) (jobId : Nat) (file : PdfFile) :
    (downloadFileStart s jobId file).store.completedDownloads
      = s.store.completedDownloads :=
  (updatePdfFile_frame s.store file.id _).2.1

theorem processQueueGo_frame (fuel : Nat) (s : Sys) :
    (processQueueGo fuel s).store.downloadJobs = s.store.downloadJobs ∧
    (processQueueGo fuel s).store.historyEntries = s.store.historyEntries ∧
    (processQueueGo fuel s).store.completedDownloads = s.store.completedDownloads ∧
    (processQueueGo fuel s).store.historyCounter = s.store.historyCounter ∧
    (processQueueGo fuel s).dl.activeDownloads = s.dl.activeDownloads ∧
    (processQueueGo fuel s).dl.maxConcurrentDownloads = s.dl.maxConcurrentDownloads ∧
    (processQueueGo fuel s).dl.cancelledJobs = s.dl.cancelledJobs := by
  induction fuel generalizing s with
  | zero => exact ⟨rfl, rfl, rfl, rfl, rfl, rfl, rfl⟩
  | succ fuel ih =>
    rw [processQueueGo]
    by_cases hc : s.dl.activeDownloads.length < s.dl.maxConcurrentDownloads
    · rw [if_pos hc]
      rcases hq : s.dl.queue with _ | ⟨⟨jobId, file⟩, rest⟩
      · exact ⟨rfl, rfl, rfl, rfl, rfl, rfl, rfl⟩
      · simp only []
        by_cases hk : s.dl.cancelledJobs.contains jobId
        · rw [if_pos hk]
          exact ih _
        · rw [if_neg hk]
          obtain ⟨b1, b2, b3, b4, b5, b6, b7⟩ := ih
            (downloadFileStart { s with dl := { s.dl with queue := rest } } jobId file)
          obtain ⟨f1, f2, f3, f4, f5, f6, f7⟩ := updatePdfFile_frame s.store file.id
            { status := some "downloading", progress := some 0 }
          exact ⟨b1.trans f1, b2.trans f3, b3.trans f2, b4.trans f6, b5, b6, b7⟩
    · rw [if_neg hc]
      exact ⟨rfl, rfl, rfl, rfl, rfl, rfl, rfl⟩

theorem processQueueGo_spawned_mono (fuel : Nat) (s : Sys) :
    ∃ t, (processQueueGo fuel s).spawned = s.spawned ++ t := by
  induction fuel generalizing s with
  | zero => exact ⟨[], (List.append_nil _).symm⟩
  | succ fuel ih =>
    rw [processQueueGo]
    by_cases hc : s.dl.activeDownloads.length < s.dl.maxConcurrentDownloads
    · rw [if_pos hc]
      rcases hq : s.dl.queue with _ | ⟨⟨jobId, file⟩, rest⟩
      · exact ⟨[], by simp⟩
      · simp only []
        by_cases hk : s.dl.cancelledJobs.contains jobId
        · rw [if_pos hk]
          exact ih _
        · rw [if_neg hk]
          obtain ⟨t, ht⟩ := ih
            (downloadFileStart { s with dl := { s.dl with queue := rest } } jobId file)
          refine ⟨(jobId, file) :: t, ?_⟩
          rw [ht, downloadFileStart_spawned]
          simp
    · rw [if_neg hc]
      exact ⟨[], by simp⟩

theorem processQueueGo_cancelled_spawn (fuel : Nat) (s : Sys) (jobId : Nat)
    (h : s.dl.cancelledJobs.contains jobId = true) :
    (processQueueGo fuel s).spawned.filter (fun p => p.1 == jobId)
      = s.spawned.filter (fun p => p.1 == jobId) := by
  induction fuel generalizing s with
  | zero => rfl
  | succ fuel ih =>
    rw [processQueueGo]
    by_cases hc : s.dl.activeDownloads.length < s.dl.maxConcurrentDownloads
    · rw [if_pos hc]
      rcases hq : s.dl.queue with _ | ⟨⟨jobId', file⟩, rest⟩
      · rfl
      · simp only []
        by_cases hk : s.dl.cancelledJobs.contains jobId'
        · rw [if_pos hk]
          exact ih _ h
        · rw [if_neg hk]
          have hne : jobId' ≠ jobId := by
            intro hh
            rw [hh] at hk
            exact hk h
          have hstep := ih
            (downloadFileStart { s with dl := { s.dl with queue := rest } } jobId' file) h
          rw [hstep, downloadFileStart_spawned]
          rw [List.filter_append]
          simp [hne]
    · rw [if_neg hc]

theorem processQueue_frame (s : Sys) :
    (processQueue s).store.downloadJobs = s.store.downloadJobs ∧
    (processQueue s).store.historyEntries = s.store.historyEntries ∧
    (processQueue s).store.completedDownloads = s.store.completedDownloads ∧
    (processQueue s).store.historyCounter = s.store.historyCounter :=
  ⟨(processQueueGo_frame _ s).1, (processQueueGo_frame _ s).2.1,
   (processQueueGo_frame _ s).2.2.1, (processQueueGo_frame _ s).2.2.2.1⟩

theorem completeJobFail_dl (env : ArchiveEnv) (s : Sys) (jobId : Nat) (msg : String) :
    (completeJobFail env s jobId msg).dl = s.dl ∧
    (completeJobFail env s jobId msg).spawned = s.spawned := ⟨rfl, rfl⟩

theorem completeJob_dl (env : ArchiveEnv) (s : Sys) (jobId : Nat) :
    (completeJob env s jobId).dl = s.dl ∧
    (completeJob env s jobId).spawned = s.spawned := by
  rcases h : s.store.getDownloadJob jobId with _ | job
  · simp only [completeJob, h]
    exact ⟨rfl, rfl⟩
  · simp only [completeJob, h]
    split_ifs <;> exact ⟨rfl, rfl⟩

theorem completeJobFail_counter (env : ArchiveEnv) (s : Sys) (jobId : Nat)
    (msg : String) (k : Nat) :
    (mapGet (completeJobFail env s jobId msg).store.downloadJobs k).map
        (fun j => j.downloadedFiles)
      = (mapGet s.store.downloadJobs k).map (fun j => j.downloadedFiles) := by
  unfold completeJobFail
  simp only []
  rw [(createHistoryEntry_frame _ _ _ _ _).2.1]
  exact updateDownloadJob_counter_frame _ _ _ rfl k

theorem completeJob_counter (env : ArchiveEnv) (s : Sys) (jobId : Nat) (k : Nat) :
    (mapGet (completeJob env s jobId).store.downloadJobs k).map
        (fun j => j.downloadedFiles)
      = (mapGet s.store.downloadJobs k).map (fun j => j.downloadedFiles) := by
  rcases h : s.store.getDownloadJob jobId with _ | job
  · simp only [completeJob, h]
    exact completeJobFail_counter env s jobId _ k
  · simp only [completeJob, h]
    split_ifs with h1 h2
    · rw [completeJobFail_counter]
      exact updateDownloadJob_counter_frame _ _ _ rfl k
    · rw [completeJobFail_counter]
      exact updateDownloadJob_counter_frame _ _ _ rfl k
    · show (mapGet (MemStorage.createHistoryEntry _ _ _ _ _).2.downloadJobs k).map _ = _
      rw [(createHistoryEntry_frame _ _ _ _ _).2.1,
        (createCompletedDownload_frame _ _ _ _ _ _).2.1,
        updateDownloadJob_counter_frame _ _ _ rfl k,
        updateDownloadJob_counter_frame _ _ _ rfl k]

/-! ## Claim C1 -/

/-- C1: the claim states that at most C (= 3) files are ever in
`downloading` state simultaneously.  The code violates this: submitting one
four-file batch on a fresh downloader leaves all four files in
`downloading` at once and starts all four fetches, because
`activeDownloads` is registered only after `downloadFile`'s first await,
so the admission loop reads a stale size 0 for the whole synchronous
drain.  The admission guard itself does compare against C, but the counter
it reads is not yet incremented for the fetches just started. -/
theorem downloadBatch_exceeds_capacity :
    (batchRun.store.getPdfFiles.filter (fun f => f.status == "downloading")).length = 4
    ∧ batchRun.dl.maxConcurrentDownloads = 3
    ∧ batchRun.spawned.length = 4
    ∧ batchRun.dl.activeDownloads.length = 0 := by decide

/-! ## Claim C10 -/

theorem optGetD_some {α : Type} (o : Option α) (d x : α) (h : o = some x) :
    o.getD d = x := by rw [h]; rfl

theorem optGetD_none {α : Type} (o : Option α) (d : α) (h : o = none) :
    o.getD d = d := by rw [h]; rfl

/-- C10: for `updatePdfFile` and `updateDownloadJob`, a missing id returns
`undefined` and leaves the store unchanged; a present id replaces exactly
that record, each field named in the partial update taking the given value,
every unnamed field keeping its old value, and every other record and the
other collections staying untouched. -/
theorem updateRecord_frame_spec (s : MemStorage) (id : Nat)
    (u : PdfFileUpdate) (v : DownloadJobUpdate) :
    (mapGet s.pdfFiles id = none → s.updatePdfFile id u = (none, s))
    ∧ (∀ f, mapGet s.pdfFiles id = some f →
        (s.updatePdfFile id u).1 = some (f.applyUpdate u)
        ∧ mapGet (s.updatePdfFile id u).2.pdfFiles id = some (f.applyUpdate u)
        ∧ (∀ x, u.url = some x → (f.applyUpdate u).url = x)
        ∧ (u.url = none → (f.applyUpdate u).url = f.url)
        ∧ (∀ x, u.filename = some x → (f.applyUpdate u).filename = x)
        ∧ (u.filename = none → (f.applyUpdate u).filename = f.filename)
        ∧ (∀ x, u.size = some x → (f.applyUpdate u).size = x)
        ∧ (u.size = none → (f.applyUpdate u).size = f.size)
        ∧ (∀ x, u.status = some x → (f.applyUpdate u).status = x)
        ∧ (u.status = none → (f.applyUpdate u).status = f.status)
        ∧ (∀ x, u.progress = some x → (f.applyUpdate u).progress = x)
        ∧ (u.progress = none → (f.applyUpdate u).progress = f.progress)
        ∧ (∀ x, u.createdAt = some x → (f.applyUpdate u).createdAt = x)
        ∧ (u.createdAt = none → (f.applyUpdate u).createdAt = f.createdAt)
        ∧ (∀ k, k ≠ id →
            mapGet (s.updatePdfFile id u).2.pdfFiles k = mapGet s.pdfFiles k)
        ∧ (s.updatePdfFile id u).2.downloadJobs = s.downloadJobs
        ∧ (s.updatePdfFile id u).2.completedDownloads = s.completedDownloads
        ∧ (s.updatePdfFile id u).2.historyEntries = s.historyEntries)
    ∧ (mapGet s.downloadJobs id = none → s.updateDownloadJob id v = (none, s))
    ∧ (∀ j, mapGet s.downloadJobs id = some j →
        (s.updateDownloadJob id v).1 = some (j.applyUpdate v)
        ∧ mapGet (s.updateDownloadJob id v).2.downloadJobs id = some (j.applyUpdate v)
        ∧ (∀ x, v.name = some x → (j.applyUpdate v).name = x)
        ∧ (v.name = none → (j.applyUpdate v).name = j.name)
        ∧ (∀ x, v.totalFiles = some x → (j.applyUpdate v).totalFiles = x)
        ∧ (v.totalFiles = none → (j.applyUpdate v).totalFiles = j.totalFiles)
        ∧ (∀ x, v.downloadedFiles = some x → (j.applyUpdate v).downloadedFiles = x)
        ∧ (v.downloadedFiles = none →
            (j.applyUpdate v).downloadedFiles = j.downloadedFiles)
        ∧ (∀ x, v.size = some x → (j.applyUpdate v).size = x)
        ∧ (v.size = none → (j.applyUpdate v).size = j.size)
        ∧ (∀ x, v.status = some x → (j.applyUpdate v).status = x)
        ∧ (v.status = none → (j.applyUpdate v).status = j.status)
        ∧ (∀ x, v.completedAt = some x → (j.applyUpdate v).completedAt = x)
        ∧ (v.completedAt = none → (j.applyUpdate v).completedAt = j.completedAt)
        ∧ (∀ k, k ≠ id →
            mapGet (s.updateDownloadJob id v).2.downloadJobs k
              = mapGet s.downloadJobs k)
        ∧ (s.updateDownloadJob id v).2.pdfFiles = s.pdfFiles
        ∧ (s.updateDownloadJob id v).2.completedDownloads = s.completedDownloads
        ∧ (s.updateDownloadJob id v).2.historyEntries = s.historyEntries) := by
  refine ⟨?_, ?_, ?_, ?_⟩
  · intro h
    unfold MemStorage.updatePdfFile
    rw [h]
  · intro f h
    refine ⟨?_, updatePdfFile_self s id u f h,
      fun x hx => optGetD_some _ _ _ hx, fun hx => optGetD_none _ _ hx,
      fun x hx => optGetD_some _ _ _ hx, fun hx => optGetD_none _ _ hx,
      fun x hx => optGetD_some _ _ _ hx, fun hx => optGetD_none _ _ hx,
      fun x hx => optGetD_some _ _ _ hx, fun hx => optGetD_none _ _ hx,
      fun x hx => optGetD_some _ _ _ hx, fun hx => optGetD_none _ _ hx,
      fun x hx => optGetD_some _ _ _ hx, fun hx => optGetD_none _ _ hx,
      fun k hk => updatePdfFile_other s id u k hk,
      (updatePdfFile_frame s id u).1, (updatePdfFile_frame s id u).2.1,
      (updatePdfFile_frame s id u).2.2.1⟩
    unfold MemStorage.updatePdfFile
    rw [h]
  · intro h
    unfold MemStorage.updateDownloadJob
    rw [h]
  · intro j h
    refine ⟨?_, updateDownloadJob_self s id v j h,
      fun x hx => optGetD_some _ _ _ hx, fun hx => optGetD_none _ _ hx,
      fun x hx => optGetD_some _ _ _ hx, fun hx => optGetD_none _ _ hx,
      fun x hx => optGetD_some _ _ _ hx, fun hx => optGetD_none _ _ hx,
      fun x hx => optGetD_some _ _ _ hx, fun hx => optGetD_none _ _ hx,
      fun x hx => optGetD_some _ _ _ hx, fun hx => optGetD_none _ _ hx,
      fun x hx => optGetD_some _ _ _ hx, fun hx => optGetD_none _ _ hx,
      fun k hk => updateDownloadJob_other s id v k hk,
      (updateDownloadJob_frame s id v).1, (updateDownloadJob_frame s id v).2.1,
      (updateDownloadJob_frame s id v).2.2.1⟩
    unfold MemStorage.updateDownloadJob
    rw [h]

/-- Witness for C10 at a concrete store: updating job 1's status in
`twoFileStore` behaves as stated, and looking up an absent file id 9
returns `undefined` with the store unchanged. -/
theorem updateRecord_frame_spec_witness :
    twoFileStore.updatePdfFile 9 { status := some "queued" } = (none, twoFileStore)
    ∧ mapGet (twoFileStore.updateDownloadJob 1
        { status := some "in progress" }).2.downloadJobs 1
      = some ((⟨1, "JFK Records 1-2", 2, 0, none, "queued", 0, none⟩ :
          DownloadJob).applyUpdate { status := some "in progress" }) := by
  constructor
  · exact (updateRecord_frame_spec twoFileStore 9
      { status := some "queued" } { status := some "in progress" }).1 (by decide)
  · exact ((updateRecord_frame_spec twoFileStore 1
      { status := some "queued" } { status := some "in progress" }).2.2.2
      ⟨1, "JFK Records 1-2", 2, 0, none, "queued", 0, none⟩ (by decide)).2.1

/-! ## Claim C9 -/

theorem speedFold_eq (now : Nat) (ds : List ActiveDownload) (a : ℚ) (n : Nat) :
    ds.foldl (speedStep now) (a, n)
      = (a + ((measurableDownloads now ds).map (instRate now)).sum,
         n + (measurableDownloads now ds).length) := by
  induction ds generalizing a n with
  | nil => simp [measurableDownloads]
  | cons d ds ih =>
    rw [List.foldl_cons]
    by_cases hd : (0 : ℚ) < ((now : ℚ) - (d.startTime : ℚ)) / 1000
    · have hstep : speedStep now (a, n) d
          = (a + (d.bytesDownloaded : ℚ) / (((now : ℚ) - (d.startTime : ℚ)) / 1000),
             n + 1) := by
        unfold speedStep
        rw [if_pos hd]
      have hmeas : measurableDownloads now (d :: ds)
          = d :: measurableDownloads now ds := by
        unfold measurableDownloads
        rw [List.filter_cons_of_pos]
        simpa using hd
      rw [hstep, ih, hmeas]
      unfold instRate
      simp only [List.map_cons, List.sum_cons, List.length_cons, Prod.mk.injEq]
      constructor
      · ring
      · omega
    · have hstep : speedStep now (a, n) d = (a, n) := by
        unfold speedStep
        rw [if_neg hd]
      have hmeas : measurableDownloads now (d :: ds) = measurableDownloads now ds := by
        unfold measurableDownloads
        rw [List.filter_cons_of_neg]
        simpa using hd
      rw [hstep, ih, hmeas]

theorem toFixed1_data (q : ℚ) : ∃ A B : List Char,
    (toFixed1 q).data = A ++ '.' :: B := by
  refine ⟨(toString ((q * 10 + 1 / 2).floor / 10)).data,
    (toString ((q * 10 + 1 / 2).floor % 10).natAbs).data, ?_⟩
  unfold toFixed1
  rw [strData_append, strData_append]
  simp

theorem toFixed1_ne_zero (q : ℚ) : toFixed1 q ≠ "0" := by
  intro h
  obtain ⟨A, B, hd⟩ := toFixed1_data q
  have hz : (toFixed1 q).data = "0".data := by rw [h]
  rw [hd] at hz
  have h0 : "0".data = ['0'] := rfl
  rw [h0] at hz
  have hlen := congrArg List.length hz
  simp at hlen
  have hA : A = [] := List.eq_nil_of_length_eq_zero (by omega)
  have hB : B = [] := List.eq_nil_of_length_eq_zero (by omega)
  subst hA hB
  simp at hz

theorem bs_append_ne (x : String) : x ++ " B/s" ≠ "0 KB/s" := by
  intro h
  have hd : x.data ++ " B/s".data = "0 KB/s".data := by rw [← strData_append, h]
  have h1 : " B/s".data = [' ', 'B', '/', 's'] := rfl
  have h2 : "0 KB/s".data = ['0', ' ', 'K', 'B', '/', 's'] := rfl
  rw [h1, h2] at hd
  have hlen := congrArg List.length hd
  simp at hlen
  obtain ⟨c0, c1, hx⟩ := List.length_eq_two.mp hlen
  rw [hx] at hd
  simp at hd

theorem kbs_append_ne (q : ℚ) : toFixed1 q ++ " KB/s" ≠ "0 KB/s" := by
  intro h
  have hd : (toFixed1 q).data ++ " KB/s".data = "0 KB/s".data := by
    rw [← strData_append, h]
  have h1 : " KB/s".data = [' ', 'K', 'B', '/', 's'] := rfl
  have h2 : "0 KB/s".data = ['0'] ++ [' ', 'K', 'B', '/', 's'] := rfl
  rw [h1, h2] at hd
  have h3 : (toFixed1 q).data = ['0'] := List.append_cancel_right hd
  exact toFixed1_ne_zero q (String.ext h3)

theorem mbs_append_ne (x : String) : x ++ " MB/s" ≠ "0 KB/s" := by
  intro h
  have hd : x.data ++ " MB/s".data = "0 KB/s".data := by rw [← strData_append, h]
  have h1 : " MB/s".data = [' ', 'M', 'B', '/', 's'] := rfl
  have h2 : "0 KB/s".data = ['0', ' ', 'K', 'B', '/', 's'] := rfl
  rw [h1, h2] at hd
  have hlen := congrArg List.length hd
  simp at hlen
  obtain ⟨c0, hx⟩ := List.length_eq_one.mp hlen
  rw [hx] at hd
  simp at hd

/-- C9: `getCurrentSpeed` agrees with the specification's description: it
returns "0 KB/s" exactly when no in-flight download has positive elapsed
time, and otherwise formats the arithmetic mean of the measurable
instantaneous rates with base-1024 thresholds (B/s below 1024, KB/s below
1024², MB/s above). -/
theorem currentThroughput_spec (now : Nat) (ds : List ActiveDownload) :
    getCurrentSpeed now ds = claimedSpeedString now ds
    ∧ (getCurrentSpeed now ds = "0 KB/s" ↔ measurableDownloads now ds = []) := by
  have hmain : getCurrentSpeed now ds = claimedSpeedString now ds := by
    unfold getCurrentSpeed claimedSpeedString
    rw [speedFold_eq now ds 0 0]
    by_cases hm : measurableDownloads now ds = []
    · simp [hm]
    · have hlen : (measurableDownloads now ds).length ≠ 0 := by
        intro hz
        exact hm (List.length_eq_zero.mp hz)
      rw [if_neg (by simpa using hlen), if_neg hm]
      unfold meanRate
      simp only [Nat.zero_add, zero_add]
  refine ⟨hmain, ?_⟩
  rw [hmain]
  unfold claimedSpeedString
  by_cases hm : measurableDownloads now ds = []
  · simp [hm]
  · rw [if_neg hm]
    simp only [hm, iff_false]
    split_ifs with h1 h2
    · exact bs_append_ne _
    · exact kbs_append_ne _
    · exact mbs_append_ne _

/-! ## Counterexamples -/

/-- C2 counterexample: in a state where `downloadedFiles` already equals
`totalFiles` (2), one more file success sets the counter to 3 and the
completion check still fires (one history entry is appended by the
completion path), so the check does not fire "exactly when it equals
totalFiles": the code compares with ≥. -/
theorem completionCheck_fires_beyond_total :
    (mapGet dupSys.store.downloadJobs 1).map
        (fun j => (j.downloadedFiles, j.totalFiles)) = some (2, 2)
    ∧ ((downloadFileAfterFetch envB frA dupSys 1 dupSnap).store.getDownloadJob 1).map
        (fun j => j.downloadedFiles) = some 3
    ∧ (downloadFileAfterFetch envB frA dupSys 1 dupSnap).store.historyEntries.length
        = dupSys.store.historyEntries.length + 1 := by decide

/-- C3 counterexample: re-invoking `completeJob` for job 1, which is
already `completed`, is not a no-op: it creates a second ArchiveRecord and
appends another history entry. -/
theorem completeJob_reinvocation_not_noop :
    (mapGet dupSys.store.downloadJobs 1).map (fun j => j.status) = some "completed"
    ∧ (completeJob envB dupSys 1).store.completedDownloads.length
        = dupSys.store.completedDownloads.length + 1
    ∧ (completeJob envB dupSys 1).store.historyEntries.length
        = dupSys.store.historyEntries.length + 1 := by decide

/-- C4 counterexample: along the retry interleaving, the counter of job 1
is decremented from 1 to 0 by the retry endpoint, and afterwards the three
stale/fresh successes drive it to 3, exceeding totalFiles = 2. -/
theorem counter_decrease_and_overflow :
    ((retryTrace3.store.getDownloadJob 1).map (fun j => j.downloadedFiles) = some 1)
    ∧ ((retryTrace4.store.getDownloadJob 1).map (fun j => j.downloadedFiles) = some 0)
    ∧ ((retryTrace7.store.getDownloadJob 1).map
        (fun j => (j.downloadedFiles, j.totalFiles)) = some (3, 2)) := by decide

/-- C5 counterexample: cancelling the two-file job 2 before any of its
entries is dequeued leaves both files in status "queued", not "ready" as
the claim's scenario expects; the rest of the scenario (job `cancelled`,
queue purged, zero ArchiveRecords) does hold. -/
theorem cancelled_job_files_not_ready :
    ((cancelTrace4.store.getPdfFile 4).map (fun f => f.status) = some "queued")
    ∧ ((cancelTrace4.store.getPdfFile 5).map (fun f => f.status) = some "queued")
    ∧ ¬ ((cancelTrace4.store.getPdfFile 4).map (fun f => f.status) = some "ready")
    ∧ ((cancelTrace4.store.getDownloadJob 2).map
        (fun j => (j.status, j.completedAt)) = some ("cancelled", some 900))
    ∧ cancelTrace4.store.completedDownloads.length = 0
    ∧ cancelTrace4.dl.queue = [] := by decide

/-- C8 counterexample: the head queue entry's file (id 4) has store status
"completed", yet the drain loop dequeues it, silently sets it back to
"downloading" and starts its fetch; no failure of any kind occurs (the
source has no failure path at dequeue). -/
theorem dequeue_of_nonqueued_file_silent :
    ((mixSys.store.getPdfFile 4).map (fun f => f.status) = some "completed")
    ∧ mixSys.dl.queue = [(3, mixSnap)]
    ∧ (processQueue mixSys).spawned = [(3, mixSnap)]
    ∧ ((processQueue mixSys).store.getPdfFile 4).map (fun f => f.status)
        = some "downloading" := by decide

/-! ## Individual equation forms of the frame lemmas (for rewriting) -/

theorem updatePdfFile_jobs_eq (s : MemStorage) (id : Nat) (u : PdfFileUpdate) :
    (s.updatePdfFile id u).2.downloadJobs = s.downloadJobs :=
  (updatePdfFile_frame s id u).1

theorem updatePdfFile_history_eq (s : MemStorage) (id : Nat) (u : PdfFileUpdate) :
    (s.updatePdfFile id u).2.historyEntries = s.historyEntries :=
  (updatePdfFile_frame s id u).2.2.1

theorem updatePdfFile_historyCounter_eq (s : MemStorage) (id : Nat)
    (u : PdfFileUpdate) :
    (s.updatePdfFile id u).2.historyCounter = s.historyCounter :=
  (updatePdfFile_frame s id u).2.2.2.2.2.1

theorem updatePdfFile_completed_eq (s : MemStorage) (id : Nat) (u : PdfFileUpdate) :
    (s.updatePdfFile id u).2.completedDownloads = s.completedDownloads :=
  (updatePdfFile_frame s id u).2.1

theorem updateDownloadJob_pdfFiles_eq (s : MemStorage) (id : Nat)
    (u : DownloadJobUpdate) :
    (s.updateDownloadJob id u).2.pdfFiles = s.pdfFiles :=
  (updateDownloadJob_frame s id u).1

theorem updateDownloadJob_history_eq (s : MemStorage) (id : Nat)
    (u : DownloadJobUpdate) :
    (s.updateDownloadJob id u).2.historyEntries = s.historyEntries :=
  (updateDownloadJob_frame s id u).2.2.1

theorem updateDownloadJob_historyCounter_eq (s : MemStorage) (id : Nat)
    (u : DownloadJobUpdate) :
    (s.updateDownloadJob id u).2.historyCounter = s.historyCounter :=
  (updateDownloadJob_frame s id u).2.2.2.2.2.1

theorem updateDownloadJob_completed_eq (s : MemStorage) (id : Nat)
    (u : DownloadJobUpdate) :
    (s.updateDownloadJob id u).2.completedDownloads = s.completedDownloads :=
  (updateDownloadJob_frame s id u).2.1

theorem createCompletedDownload_history_eq (s : MemStorage) (now : Nat)
    (fn ct sz pa : String) :
    (s.createCompletedDownload now fn ct sz pa).2.historyEntries
      = s.historyEntries := rfl

theorem createCompletedDownload_historyCounter_eq (s : MemStorage) (now : Nat)
    (fn ct sz pa : String) :
    (s.createCompletedDownload now fn ct sz pa).2.historyCounter
      = s.historyCounter := rfl

theorem createCompletedDownload_jobs_eq (s : MemStorage) (now : Nat)
    (fn ct sz pa : String) :
    (s.createCompletedDownload now fn ct sz pa).2.downloadJobs
      = s.downloadJobs := rfl

theorem createHistoryEntry_jobs_eq (s : MemStorage) (now : Nat)
    (action details : String) (n : Int) :
    (s.createHistoryEntry now action details n).2.downloadJobs
      = s.downloadJobs := rfl

theorem createHistoryEntry_completed_eq (s : MemStorage) (now : Nat)
    (action details : String) (n : Int) :
    (s.createHistoryEntry now action details n).2.completedDownloads
      = s.completedDownloads := rfl

/-! ## Claim C3 (amended) -/

theorem completeJobFail_history_len (env : ArchiveEnv) (s : Sys) (jobId : Nat)
    (msg : String)
    (hwf : ∀ p ∈ s.store.historyEntries, p.1 < s.store.historyCounter) :
    (completeJobFail env s jobId msg).store.historyEntries.length
      = s.store.historyEntries.length + 1 := by
  unfold completeJobFail
  dsimp only
  rw [createHistoryEntry_len]
  · rw [updateDownloadJob_history_eq]
  · simp only [updateDownloadJob_history_eq, updateDownloadJob_historyCounter_eq]
    exact hwf

/-- Every invocation of `completeJob` appends exactly one history entry:
both the success path and the catch path end in `createHistoryEntry`. -/
theorem completeJob_history_len (env : ArchiveEnv) (s : Sys) (jobId : Nat)
    (hwf : ∀ p ∈ s.store.historyEntries, p.1 < s.store.historyCounter) :
    (completeJob env s jobId).store.historyEntries.length
      = s.store.historyEntries.length + 1 := by
  rcases h : s.store.getDownloadJob jobId with _ | job
  · simp only [completeJob, h]
    exact completeJobFail_history_len env s jobId _ hwf
  · simp only [completeJob, h]
    split_ifs with h1 h2
    · rw [completeJobFail_history_len]
      · dsimp only
        rw [updateDownloadJob_history_eq]
      · dsimp only
        simp only [updateDownloadJob_history_eq, updateDownloadJob_historyCounter_eq]
        exact hwf
    · rw [completeJobFail_history_len]
      · dsimp only
        rw [updateDownloadJob_history_eq]
      · dsimp only
        simp only [updateDownloadJob_history_eq, updateDownloadJob_historyCounter_eq]
        exact hwf
    · dsimp only
      rw [createHistoryEntry_len]
      · simp only [createCompletedDownload_history_eq, updateDownloadJob_history_eq]
      · simp only [createCompletedDownload_history_eq,
          createCompletedDownload_historyCounter_eq, updateDownloadJob_history_eq,
          updateDownloadJob_historyCounter_eq]
        exact hwf

/-- C3 amended: re-invoking `completeJob` for a job already in
`creating zip` or `completed` is NOT a no-op.  There is no status guard:
every invocation — whatever the job's current status — re-runs the
archiving path, appends exactly one history entry (a "Download completed"
or "Download failed" record) and therefore changes the state. -/
theorem completeJob_reinvocation_effect (env : ArchiveEnv) (s : Sys) (jobId : Nat)
    (hwf : ∀ p ∈ s.store.historyEntries, p.1 < s.store.historyCounter) :
    (completeJob env s jobId).store.historyEntries.length
      = s.store.historyEntries.length + 1
    ∧ completeJob env s jobId ≠ s := by
  have h := completeJob_history_len env s jobId hwf
  refine ⟨h, ?_⟩
  intro he
  rw [he] at h
  omega

/-- Witness for C3's amended theorem at the concrete re-invocation
scenario. -/
theorem completeJob_reinvocation_effect_witness :
    (completeJob envB dupSys 1).store.historyEntries.length
      = dupSys.store.historyEntries.length + 1
    ∧ completeJob envB dupSys 1 ≠ dupSys :=
  completeJob_reinvocation_effect envB dupSys 1 (by decide)

/-! ## Claim C7 -/

theorem jobCompletedFiles_congr (s1 s2 : MemStorage) (name : String)
    (h : s1.pdfFiles = s2.pdfFiles) :
    jobCompletedFiles s1 name = jobCompletedFiles s2 name := by
  unfold jobCompletedFiles MemStorage.getPdfFiles
  rw [h]

theorem completeJobFail_spec (env : ArchiveEnv) (s : Sys) (jobId : Nat)
    (msg : String) (job : DownloadJob)
    (hjob : mapGet s.store.downloadJobs jobId = some job)
    (hwf : ∀ p ∈ s.store.historyEntries, p.1 < s.store.historyCounter) :
    ((completeJobFail env s jobId msg).store.getDownloadJob jobId).map
        (fun j => (j.status, j.completedAt)) = some ("failed", some env.now)
    ∧ (completeJobFail env s jobId msg).store.historyEntries
        = s.store.historyEntries ++
          [(s.store.historyCounter,
            ⟨s.store.historyCounter, env.now, "Download failed",
             "Failed to complete download job " ++ toString jobId ++ ": " ++ msg,
             0⟩)]
    ∧ (completeJobFail env s jobId msg).store.completedDownloads
        = s.store.completedDownloads
    ∧ (completeJobFail env s jobId msg).dl = s.dl
    ∧ (completeJobFail env s jobId msg).spawned = s.spawned := by
  unfold completeJobFail
  dsimp only
  refine ⟨?_, ?_, ?_, rfl, rfl⟩
  · unfold MemStorage.getDownloadJob
    rw [createHistoryEntry_jobs_eq,
      updateDownloadJob_self s.store jobId _ job hjob]
    simp [DownloadJob.applyUpdate]
  · rw [createHistoryEntry_append]
    · rw [updateDownloadJob_history_eq, updateDownloadJob_historyCounter_eq]
    · simp only [updateDownloadJob_history_eq, updateDownloadJob_historyCounter_eq]
      exact hwf
  · rw [createHistoryEntry_completed_eq, updateDownloadJob_completed_eq]

/-- C7: whenever the archiving step fails — either no staged artifact
resolves for the job's completed files, or archive creation throws — the
job is set to `failed` with completion timestamp `env.now`, one history
entry with action "Download failed" is appended, no ArchiveRecord is
created, and no retry of any kind happens: the queue, the active set and
the spawn log are untouched. -/
theorem completeJob_failure_handling (env : ArchiveEnv) (s : Sys) (jobId : Nat)
    (job : DownloadJob)
    (hjob : s.store.getDownloadJob jobId = some job)
    (hfail : resolveTempFiles env (jobCompletedFiles s.store job.name) = []
      ∨ env.zipOk = false)
    (hwf : ∀ p ∈ s.store.historyEntries, p.1 < s.store.historyCounter) :
    ((completeJob env s jobId).store.getDownloadJob jobId).map
        (fun j => (j.status, j.completedAt)) = some ("failed", some env.now)
    ∧ (∃ e : History, (completeJob env s jobId).store.historyEntries
        = s.store.historyEntries ++ [(s.store.historyCounter, e)]
        ∧ e.action = "Download failed")
    ∧ (completeJob env s jobId).store.completedDownloads
        = s.store.completedDownloads
    ∧ (completeJob env s jobId).dl = s.dl
    ∧ (completeJob env s jobId).spawned = s.spawned := by
  simp only [completeJob, hjob]
  have hfiles : jobCompletedFiles
      (s.store.updateDownloadJob jobId { status := some "creating zip" }).2 job.name
      = jobCompletedFiles s.store job.name :=
    jobCompletedFiles_congr _ _ _ (updateDownloadJob_pdfFiles_eq s.store jobId _)
  have hjob1 : mapGet
      (s.store.updateDownloadJob jobId { status := some "creating zip" }).2.downloadJobs
      jobId = some (job.applyUpdate { status := some "creating zip" }) :=
    updateDownloadJob_self s.store jobId _ job hjob
  have hwf1 : ∀ p ∈
      (s.store.updateDownloadJob jobId { status := some "creating zip" }).2.historyEntries,
      p.1 < (s.store.updateDownloadJob jobId
        { status := some "creating zip" }).2.historyCounter := by
    simp only [updateDownloadJob_history_eq, updateDownloadJob_historyCounter_eq]
    exact hwf
  have hbranch : ∀ msg : String,
      ((completeJobFail env
          { s with store :=
              (s.store.updateDownloadJob jobId { status := some "creating zip" }).2 }
          jobId msg).store.getDownloadJob jobId).map
          (fun j => (j.status, j.completedAt)) = some ("failed", some env.now)
      ∧ (∃ e : History, (completeJobFail env
          { s with store :=
              (s.store.updateDownloadJob jobId { status := some "creating zip" }).2 }
          jobId msg).store.historyEntries
          = s.store.historyEntries ++ [(s.store.historyCounter, e)]
          ∧ e.action = "Download failed")
      ∧ (completeJobFail env
          { s with store :=
              (s.store.updateDownloadJob jobId { status := some "creating zip" }).2 }
          jobId msg).store.completedDownloads = s.store.completedDownloads
      ∧ (completeJobFail env
          { s with store :=
              (s.store.updateDownloadJob jobId { status := some "creating zip" }).2 }
          jobId msg).dl = s.dl
      ∧ (completeJobFail env
          { s with store :=
              (s.store.updateDownloadJob jobId { status := some "creating zip" }).2 }
          jobId msg).spawned = s.spawned := by
    intro msg
    obtain ⟨c1, c2, c3, c4, c5⟩ := completeJobFail_spec env
      { s with store :=
          (s.store.updateDownloadJob jobId { status := some "creating zip" }).2 }
      jobId msg (job.applyUpdate { status := some "creating zip" }) hjob1 hwf1
    simp only [updateDownloadJob_history_eq, updateDownloadJob_historyCounter_eq,
      updateDownloadJob_completed_eq] at c2 c3
    exact ⟨c1, ⟨_, c2, rfl⟩, c3, c4, c5⟩
  by_cases hE : (resolveTempFiles env
      (jobCompletedFiles
        (s.store.updateDownloadJob jobId { status := some "creating zip" }).2
        job.name)).isEmpty
  · rw [if_pos hE]
    exact hbranch _
  · have hzip : env.zipOk = false := by
      rcases hfail with hfa | hfb
      · exfalso
        rw [hfiles, hfa] at hE
        exact hE rfl
      · exact hfb
    rw [if_neg hE, if_pos hzip]
    exact hbranch _

/-- Witness for C7 at a concrete input: completing job 1 of `fiveFileStore`
with an empty temp directory (no staged artifacts resolve) marks the job
failed at time 5000 and appends a "Download failed" history entry. -/
theorem completeJob_failure_handling_witness :
    (((completeJob ⟨[], fun _ => true, true, 512, "zip error", 5000⟩
          (Sys.init fiveFileStore) 1).store.getDownloadJob 1).map
        (fun j => (j.status, j.completedAt)) = some ("failed", some 5000))
    ∧ (∃ e : History, (completeJob ⟨[], fun _ => true, true, 512, "zip error", 5000⟩
          (Sys.init fiveFileStore) 1).store.historyEntries
        = (Sys.init fiveFileStore).store.historyEntries
            ++ [((Sys.init fiveFileStore).store.historyCounter, e)]
        ∧ e.action = "Download failed") := by
  obtain ⟨c1, c2, c3, c4, c5⟩ := completeJob_failure_handling
    ⟨[], fun _ => true, true, 512, "zip error", 5000⟩ (Sys.init fiveFileStore) 1
    ⟨1, "JFK Records 1-3", 3, 0, none, "queued", 0, none⟩
    (by decide) (Or.inl (by decide)) (by decide)
  exact ⟨c1, c2⟩

/-! ## Claim C2 (amended) -/

theorem processQueue_counter (t : Sys) (k : Nat) :
    ((processQueue t).store.getDownloadJob k).map (fun j => j.downloadedFiles)
      = (t.store.getDownloadJob k).map (fun j => j.downloadedFiles) := by
  unfold MemStorage.getDownloadJob
  rw [(processQueue_frame t).1]

theorem processQueue_history_len (t : Sys) :
    (processQueue t).store.historyEntries.length
      = t.store.historyEntries.length := by
  rw [(processQueue_frame t).2.1]

theorem completeJob_counter_get (env : ArchiveEnv) (s : Sys) (jobId k : Nat) :
    ((completeJob env s jobId).store.getDownloadJob k).map
        (fun j => j.downloadedFiles)
      = (s.store.getDownloadJob k).map (fun j => j.downloadedFiles) := by
  unfold MemStorage.getDownloadJob
  exact completeJob_counter env s jobId k

theorem successFinish_spec (env : ArchiveEnv) (s3 : Sys) (jobId fileId : Nat)
    (job : DownloadJob) (hlen : Nat)
    (hjob3 : s3.store.getDownloadJob jobId = some job)
    (hwf3 : ∀ p ∈ s3.store.historyEntries, p.1 < s3.store.historyCounter)
    (hh : s3.store.historyEntries.length = hlen) :
    ((successFinish env s3 jobId fileId).store.getDownloadJob jobId).map
        (fun j => j.downloadedFiles) = some (job.downloadedFiles + 1)
    ∧ (successFinish env s3 jobId fileId).store.historyEntries.length
        = hlen + (if job.downloadedFiles + 1 ≥ job.totalFiles then 1 else 0) := by
  unfold successFinish
  rw [hjob3]
  dsimp only
  have hself := updateDownloadJob_self s3.store jobId
    { downloadedFiles := some (job.downloadedFiles + 1),
      size := some (some (jsOr job.size "Calculating...")) } job hjob3
  have hwf4 : ∀ p ∈ (s3.store.updateDownloadJob jobId
      { downloadedFiles := some (job.downloadedFiles + 1),
        size := some (some (jsOr job.size "Calculating...")) }).2.historyEntries,
      p.1 < (s3.store.updateDownloadJob jobId
      { downloadedFiles := some (job.downloadedFiles + 1),
        size := some (some (jsOr job.size "Calculating...")) }).2.historyCounter := by
    simp only [updateDownloadJob_history_eq, updateDownloadJob_historyCounter_eq]
    exact hwf3
  by_cases hge : job.downloadedFiles + 1 ≥ job.totalFiles
  · rw [if_pos hge, if_pos hge]
    constructor
    · rw [processQueue_counter]
      dsimp only
      rw [completeJob_counter_get]
      dsimp only
      unfold MemStorage.getDownloadJob
      rw [hself]
      simp [DownloadJob.applyUpdate]
    · rw [processQueue_history_len]
      dsimp only
      rw [completeJob_history_len _ _ _ hwf4]
      dsimp only
      rw [updateDownloadJob_history_eq, hh]
  · rw [if_neg hge, if_neg hge]
    constructor
    · rw [processQueue_counter]
      dsimp only
      unfold MemStorage.getDownloadJob
      rw [hself]
      simp [DownloadJob.applyUpdate]
    · rw [processQueue_history_len]
      dsimp only
      rw [updateDownloadJob_history_eq, hh]
      omega

/-- C2 amended: on every individual file success (ok response, job not
cancelled), the job's `downloadedFiles` counter is set to exactly the
previously read value plus one, and the completion handler fires exactly
when that post-increment value is greater than or equal to `totalFiles` —
the code compares with ≥, not =, so it also fires on successes beyond the
total.  Firing is observed as exactly one appended history entry; the
non-firing path appends none. -/
theorem success_increments_and_checks (env : ArchiveEnv) (fr : FetchResult)
    (s : Sys) (jobId : Nat) (file : PdfFile) (job : DownloadJob)
    (hok : fr.ok = true)
    (hnc : s.dl.cancelledJobs.contains jobId = false)
    (hjob : s.store.getDownloadJob jobId = some job)
    (hwf : ∀ p ∈ s.store.historyEntries, p.1 < s.store.historyCounter) :
    ((downloadFileAfterFetch env fr s jobId file).store.getDownloadJob jobId).map
        (fun j => j.downloadedFiles) = some (job.downloadedFiles + 1)
    ∧ (downloadFileAfterFetch env fr s jobId file).store.historyEntries.length
        = s.store.historyEntries.length
          + (if job.downloadedFiles + 1 ≥ job.totalFiles then 1 else 0) := by
  have hok' : ¬ (fr.ok = false) := by rw [hok]; simp
  have hnc' : ¬ (s.dl.cancelledJobs.contains jobId = true) := by rw [hnc]; simp
  rw [downloadFileAfterFetch, if_neg hok', if_neg hnc']
  dsimp only
  by_cases hsz : (file.size == some "Unknown") = true
  · simp only [hsz, if_true]
    apply successFinish_spec env _ jobId file.id job
    · unfold MemStorage.getDownloadJob
      simp only [updatePdfFile_jobs_eq]
      exact hjob
    · simp only [updatePdfFile_history_eq, updatePdfFile_historyCounter_eq]
      exact hwf
    · simp only [updatePdfFile_history_eq]
  · have hsz' : (file.size == some "Unknown") = false := by simpa using hsz
    simp only [hsz', Bool.false_eq_true, if_false]
    apply successFinish_spec env _ jobId file.id job
    · unfold MemStorage.getDownloadJob
      simp only [updatePdfFile_jobs_eq]
      exact hjob
    · simp only [updatePdfFile_history_eq, updatePdfFile_historyCounter_eq]
      exact hwf
    · simp only [updatePdfFile_history_eq]

/-- Witness for C2's amended theorem: a success for job 1 of `twoFileStore`
(counter 0, total 2) sets the counter to 1 and appends no history entry. -/
theorem success_increments_and_checks_witness :
    ((downloadFileAfterFetch envA frA (Sys.init twoFileStore) 1 fileA).store.getDownloadJob
        1).map (fun j => j.downloadedFiles) = some (0 + 1)
    ∧ (downloadFileAfterFetch envA frA (Sys.init twoFileStore) 1 fileA).store.historyEntries.length
        = (Sys.init twoFileStore).store.historyEntries.length
          + (if (0 : Int) + 1 ≥ 2 then 1 else 0) :=
  success_increments_and_checks envA frA (Sys.init twoFileStore) 1 fileA
    ⟨1, "JFK Records 1-2", 2, 0, none, "queued", 0, none⟩
    rfl rfl (by decide) (by decide)

/-! ## Claim C4 (amended) -/

theorem updatePdfFile_getJob (st : MemStorage) (id : Nat) (u : PdfFileUpdate)
    (k : Nat) :
    (st.updatePdfFile id u).2.getDownloadJob k = st.getDownloadJob k := by
  unfold MemStorage.getDownloadJob
  rw [updatePdfFile_jobs_eq]

theorem updateDownloadJob_counter_get (st : MemStorage) (id : Nat)
    (u : DownloadJobUpdate) (hu : u.downloadedFiles = none) (k : Nat) :
    ((st.updateDownloadJob id u).2.getDownloadJob k).map (fun j => j.downloadedFiles)
      = (st.getDownloadJob k).map (fun j => j.downloadedFiles) := by
  unfold MemStorage.getDownloadJob
  exact updateDownloadJob_counter_frame st id u hu k

theorem enqueueFold_getJob (jobId : Nat) (files : List PdfFile) (acc : Sys)
    (k : Nat) :
    ((files.foldl (enqueueStep jobId) acc).store.getDownloadJob k)
      = acc.store.getDownloadJob k := by
  induction files generalizing acc with
  | nil => rfl
  | cons f fs ih =>
    rw [List.foldl_cons, ih]
    unfold enqueueStep
    dsimp only
    exact updatePdfFile_getJob acc.store f.id _ k

theorem downloadBatch_counter (s : Sys) (jobId k : Nat) (files : List PdfFile) :
    ((downloadBatch s jobId files).store.getDownloadJob k).map
        (fun j => j.downloadedFiles)
      = (s.store.getDownloadJob k).map (fun j => j.downloadedFiles) := by
  unfold downloadBatch enqueueBatch
  rw [processQueue_counter, enqueueFold_getJob]
  dsimp only
  exact updateDownloadJob_counter_get s.store jobId _ rfl k

theorem cancelDownload_counter (s : Sys) (jobId now k : Nat) :
    ((cancelDownload s jobId now).store.getDownloadJob k).map
        (fun j => j.downloadedFiles)
      = (s.store.getDownloadJob k).map (fun j => j.downloadedFiles) := by
  unfold cancelDownload
  dsimp only
  exact updateDownloadJob_counter_get s.store jobId _ rfl k

theorem downloadFileCatch_counter (s : Sys) (file : PdfFile) (k : Nat) :
    ((downloadFileCatch s file).store.getDownloadJob k).map
        (fun j => j.downloadedFiles)
      = (s.store.getDownloadJob k).map (fun j => j.downloadedFiles) := by
  unfold downloadFileCatch
  dsimp only
  rw [processQueue_counter]
  dsimp only
  rw [updatePdfFile_getJob]

theorem successFinish_counter (env : ArchiveEnv) (s3 : Sys) (jobId fileId : Nat)
    (job : DownloadJob)
    (hjob3 : s3.store.getDownloadJob jobId = some job) :
    ((successFinish env s3 jobId fileId).store.getDownloadJob jobId).map
        (fun j => j.downloadedFiles) = some (job.downloadedFiles + 1) := by
  unfold successFinish
  rw [hjob3]
  dsimp only
  have hself := updateDownloadJob_self s3.store jobId
    { downloadedFiles := some (job.downloadedFiles + 1),
      size := some (some (jsOr job.size "Calculating...")) } job hjob3
  by_cases hge : job.downloadedFiles + 1 ≥ job.totalFiles
  · rw [if_pos hge, processQueue_counter]
    dsimp only
    rw [completeJob_counter_get]
    dsimp only
    unfold MemStorage.getDownloadJob
    rw [hself]
    simp [DownloadJob.applyUpdate]
  · rw [if_neg hge, processQueue_counter]
    dsimp only
    unfold MemStorage.getDownloadJob
    rw [hself]
    simp [DownloadJob.applyUpdate]

theorem afterFetch_success_counter (env : ArchiveEnv) (fr : FetchResult)
    (s : Sys) (jobId : Nat) (file : PdfFile) (job : DownloadJob)
    (hok : fr.ok = true)
    (hnc : s.dl.cancelledJobs.contains jobId = false)
    (hjob : s.store.getDownloadJob jobId = some job) :
    ((downloadFileAfterFetch env fr s jobId file).store.getDownloadJob jobId).map
        (fun j => j.downloadedFiles) = some (job.downloadedFiles + 1) := by
  have hok' : ¬ (fr.ok = false) := by rw [hok]; simp
  have hnc' : ¬ (s.dl.cancelledJobs.contains jobId = true) := by rw [hnc]; simp
  rw [downloadFileAfterFetch, if_neg hok', if_neg hnc']
  dsimp only
  by_cases hsz : (file.size == some "Unknown") = true
  · simp only [hsz, if_true]
    apply successFinish_counter env _ jobId file.id job
    simp only [updatePdfFile_getJob]
    exact hjob
  · have hsz' : (file.size == some "Unknown") = false := by simpa using hsz
    simp only [hsz', Bool.false_eq_true, if_false]
    apply successFinish_counter env _ jobId file.id job
    simp only [updatePdfFile_getJob]
    exact hjob

theorem afterFetch_cancelled_counter (env : ArchiveEnv) (fr : FetchResult)
    (s : Sys) (jobId : Nat) (file : PdfFile) (k : Nat)
    (hok : fr.ok = true)
    (hnc : s.dl.cancelledJobs.contains jobId = true) :
    ((downloadFileAfterFetch env fr s jobId file).store.getDownloadJob k).map
        (fun j => j.downloadedFiles)
      = (s.store.getDownloadJob k).map (fun j => j.downloadedFiles) := by
  have hok' : ¬ (fr.ok = false) := by rw [hok]; simp
  rw [downloadFileAfterFetch, if_neg hok', if_pos hnc]
  dsimp only
  rw [updatePdfFile_getJob]

theorem retryDownload_counter (s : Sys) (jobId now : Nat) (job : DownloadJob)
    (hjob : s.store.getDownloadJob jobId = some job) :
    ((retryDownload s jobId now).store.getDownloadJob jobId).map
        (fun j => j.downloadedFiles) = some 0 := by
  simp only [retryDownload, hjob]
  have hch : ∀ (st : MemStorage) (n : Nat) (a d : String) (c : Int) (k : Nat),
      (st.createHistoryEntry n a d c).2.getDownloadJob k = st.getDownloadJob k :=
    fun _ _ _ _ _ _ => rfl
  rw [hch, downloadBatch_counter]
  dsimp only
  have hself := updateDownloadJob_self s.store jobId
    { status := some "queued", downloadedFiles := some 0 } job hjob
  unfold MemStorage.getDownloadJob
  rw [hself]
  simp [DownloadJob.applyUpdate]

/-- C4 amended: within the downloader core, a job's `downloadedFiles`
counter is never decremented — `downloadBatch` (enqueue and drain),
`processQueue`, `cancelDownload`, `completeJob` and the per-file failure
path leave every job's counter unchanged, a success for a cancelled job's
file leaves every counter unchanged, and a counted success sets the owning
job's counter to exactly the previously read value plus one.  The retry
endpoint, however, resets the counter to 0 (and stale in-flight successes
arriving after a retry can then push it past `totalFiles`, as the
counterexample trace shows), so the claim's "never decremented by any core
operation" and "never exceeds totalFiles" only hold away from the retry
endpoint. -/
theorem counter_core_behaviour (s : Sys) (jobId k now : Nat)
    (files : List PdfFile) (env : ArchiveEnv) (fr : FetchResult) (file : PdfFile) :
    (((downloadBatch s jobId files).store.getDownloadJob k).map
        (fun j => j.downloadedFiles)
      = (s.store.getDownloadJob k).map (fun j => j.downloadedFiles))
    ∧ (((processQueue s).store.getDownloadJob k).map (fun j => j.downloadedFiles)
      = (s.store.getDownloadJob k).map (fun j => j.downloadedFiles))
    ∧ (((cancelDownload s jobId now).store.getDownloadJob k).map
        (fun j => j.downloadedFiles)
      = (s.store.getDownloadJob k).map (fun j => j.downloadedFiles))
    ∧ (((completeJob env s jobId).store.getDownloadJob k).map
        (fun j => j.downloadedFiles)
      = (s.store.getDownloadJob k).map (fun j => j.downloadedFiles))
    ∧ (((downloadFileCatch s file).store.getDownloadJob k).map
        (fun j => j.downloadedFiles)
      = (s.store.getDownloadJob k).map (fun j => j.downloadedFiles))
    ∧ (∀ job, fr.ok = true → s.dl.cancelledJobs.contains jobId = false →
        s.store.getDownloadJob jobId = some job →
        ((downloadFileAfterFetch env fr s jobId file).store.getDownloadJob jobId).map
          (fun j => j.downloadedFiles) = some (job.downloadedFiles + 1))
    ∧ (fr.ok = true → s.dl.cancelledJobs.contains jobId = true →
        ((downloadFileAfterFetch env fr s jobId file).store.getDownloadJob k).map
          (fun j => j.downloadedFiles)
        = (s.store.getDownloadJob k).map (fun j => j.downloadedFiles))
    ∧ (∀ job, s.store.getDownloadJob jobId = some job →
        ((retryDownload s jobId now).store.getDownloadJob jobId).map
          (fun j => j.downloadedFiles) = some 0) :=
  ⟨downloadBatch_counter s jobId k files,
   processQueue_counter s k,
   cancelDownload_counter s jobId now k,
   completeJob_counter_get env s jobId k,
   downloadFileCatch_counter s file k,
   fun job hok hnc hjob => afterFetch_success_counter env fr s jobId file job hok hnc hjob,
   fun hok hnc => afterFetch_cancelled_counter env fr s jobId file k hok hnc,
   fun job hjob => retryDownload_counter s jobId now job hjob⟩

/-- Witness for C4's amended theorem at concrete inputs: cancelling and
retrying job 1 of `twoFileStore` exhibit the stated counter behaviour. -/
theorem counter_core_behaviour_witness :
    (((cancelDownload (Sys.init twoFileStore) 1 900).store.getDownloadJob 1).map
        (fun j => j.downloadedFiles)
      = ((Sys.init twoFileStore).store.getDownloadJob 1).map
        (fun j => j.downloadedFiles))
    ∧ ((retryDownload (Sys.init twoFileStore) 1 900).store.getDownloadJob 1).map
        (fun j => j.downloadedFiles) = some 0 :=
  ⟨(counter_core_behaviour (Sys.init twoFileStore) 1 1 900 [] envA frA fileA).2.2.1,
   (counter_core_behaviour (Sys.init twoFileStore) 1 1 900 [] envA frA
      fileA).2.2.2.2.2.2.2
     ⟨1, "JFK Records 1-2", 2, 0, none, "queued", 0, none⟩ (by decide)⟩

/-! ## Claim C5 (amended) -/

/-- C5 amended: after `cancel(jobId)` no queued-but-not-yet-dequeued entry
of that job is ever dequeued into a fetch — cancellation purges every
pending entry of the job and records the job as cancelled, and any drain
pass run while the job is in the cancelled set starts no fetch for it (its
projection of the spawn log is unchanged).  In the concrete
cancel-before-dequeue scenario of a 2-file job, the job ends `cancelled`,
zero ArchiveRecords exist, and both files remain — `queued`, not `ready`
as the claim states: nothing resets their status after submission marked
them queued. -/
theorem cancel_removes_and_blocks (s t : Sys) (jobId now fuel : Nat)
    (ht : t.dl.cancelledJobs.contains jobId = true) :
    ((cancelDownload s jobId now).dl.queue.filter (fun p => p.1 == jobId) = [])
    ∧ ((cancelDownload s jobId now).dl.cancelledJobs.contains jobId = true)
    ∧ ((processQueueGo fuel t).spawned.filter (fun p => p.1 == jobId)
        = t.spawned.filter (fun p => p.1 == jobId))
    ∧ ((cancelTrace4.store.getPdfFile 4).map (fun f => f.status) = some "queued"
       ∧ (cancelTrace4.store.getPdfFile 5).map (fun f => f.status) = some "queued"
       ∧ (cancelTrace4.store.getDownloadJob 2).map (fun j => j.status)
           = some "cancelled"
       ∧ cancelTrace4.store.completedDownloads = []
       ∧ cancelTrace4.dl.queue = []) := by
  refine ⟨?_, ?_, processQueueGo_cancelled_spawn fuel t jobId ht, by decide⟩
  · unfold cancelDownload
    dsimp only
    refine List.filter_eq_nil_iff.mpr ?_
    intro a ha
    have h2 := (List.mem_filter.mp ha).2
    simp only [bne_iff_ne, ne_eq] at h2
    simp [h2]
  · unfold cancelDownload
    dsimp only
    by_cases hc : s.dl.cancelledJobs.contains jobId
    · rw [if_pos hc]
      exact hc
    · rw [if_neg hc]
      simp

/-- Witness for C5's amended theorem at the concrete scenario. -/
theorem cancel_removes_and_blocks_witness :
    ((cancelDownload cancelTrace3 2 900).dl.queue.filter (fun p => p.1 == 2) = [])
    ∧ ((processQueueGo 1 cancelTrace4).spawned.filter (fun p => p.1 == 2)
        = cancelTrace4.spawned.filter (fun p => p.1 == 2)) :=
  ⟨(cancel_removes_and_blocks cancelTrace3 cancelTrace4 2 900 1 (by decide)).1,
   (cancel_removes_and_blocks cancelTrace3 cancelTrace4 2 900 1 (by decide)).2.2.1⟩

/-! ## Claim C8 (amended) -/

/-- C8 amended: there is no loud failure and no check at all — the drain
loop inspects only capacity and the cancelled set, never the dequeued
file's state: whenever capacity allows and the head entry's job is not
cancelled, the fetch starts (the entry enters the spawn log) regardless of
the file's status in the store, which is silently overwritten to
`downloading`. -/
theorem dequeue_starts_fetch_unconditionally (s : Sys) (jobId : Nat)
    (file : PdfFile) (rest : List (Nat × PdfFile))
    (hq : s.dl.queue = (jobId, file) :: rest)
    (hnc : s.dl.cancelledJobs.contains jobId = false)
    (hcap : s.dl.activeDownloads.length < s.dl.maxConcurrentDownloads) :
    (jobId, file) ∈ (processQueue s).spawned := by
  have hnc' : ¬ (s.dl.cancelledJobs.contains jobId = true) := by rw [hnc]; simp
  unfold processQueue
  rw [hq, List.length_cons, processQueueGo, if_pos hcap]
  simp only [hq]
  rw [if_neg hnc']
  obtain ⟨tl, htl⟩ := processQueueGo_spawned_mono rest.length
    (downloadFileStart { s with dl := { s.dl with queue := rest } } jobId file)
  rw [htl, downloadFileStart_spawned]
  simp

/-- Witness for C8's amended theorem at the concrete mixed state: file 4 is
`completed` in the store, yet its queue entry for job 3 is dequeued into a
fetch. -/
theorem dequeue_starts_fetch_unconditionally_witness :
    ((3 : Nat), mixSnap) ∈ (processQueue mixSys).spawned :=
  dequeue_starts_fetch_unconditionally mixSys 3 mixSnap [] rfl rfl (by decide)

/-! ## Claim C6 -/

theorem updatePdfFile_status_val (st : MemStorage) (id : Nat) (v : String)
    (h : (mapGet st.pdfFiles id).isSome) :
    (mapGet (st.updatePdfFile id { status := some v }).2.pdfFiles id).map
      (fun g => g.status) = some v := by
  rcases ho : mapGet st.pdfFiles id with _ | f
  · rw [ho] at h
    simp at h
  · rw [updatePdfFile_self st id _ f ho]
    simp [PdfFile.applyUpdate]

theorem enqueueFold_keeps_queued (jobId : Nat) (files : List PdfFile) (acc : Sys)
    (k : Nat)
    (h : (mapGet acc.store.pdfFiles k).map (fun g => g.status) = some "queued") :
    (mapGet (files.foldl (enqueueStep jobId) acc).store.pdfFiles k).map
      (fun g => g.status) = some "queued" := by
  induction files generalizing acc with
  | nil => exact h
  | cons g gs ih =>
    rw [List.foldl_cons]
    apply ih
    unfold enqueueStep
    dsimp only
    by_cases hk : k = g.id
    · subst hk
      have hs : (mapGet acc.store.pdfFiles g.id).isSome := by
        rcases ho : mapGet acc.store.pdfFiles g.id with _ | f
        · rw [ho] at h
          simp at h
        · rfl
      exact updatePdfFile_status_val acc.store g.id "queued" hs
    · rw [updatePdfFile_other acc.store g.id _ k hk]
      exact h

theorem enqueueFold_marks_queued (jobId : Nat) (files : List PdfFile) (acc : Sys)
    (f : PdfFile) (hf : f ∈ files)
    (hpres : ∀ g ∈ files, (mapGet acc.store.pdfFiles g.id).isSome) :
    (mapGet (files.foldl (enqueueStep jobId) acc).store.pdfFiles f.id).map
      (fun g => g.status) = some "queued" := by
  induction files generalizing acc with
  | nil => cases hf
  | cons g gs ih =>
    rw [List.foldl_cons]
    rcases List.mem_cons.mp hf with hfg | hfs
    · subst hfg
      apply enqueueFold_keeps_queued
      unfold enqueueStep
      dsimp only
      exact updatePdfFile_status_val acc.store f.id "queued" (hpres f (by simp))
    · refine ih _ hfs ?_
      intro g' hg'
      unfold enqueueStep
      dsimp only
      exact updatePdfFile_isSome acc.store g.id _ g'.id (hpres g' (by simp [hg']))

theorem enqueueFold_queue (jobId : Nat) (files : List PdfFile) (acc : Sys) :
    (files.foldl (enqueueStep jobId) acc).dl.queue
      = acc.dl.queue ++ files.map (fun f => (jobId, f)) := by
  induction files generalizing acc with
  | nil => simp
  | cons g gs ih =>
    rw [List.foldl_cons, ih]
    unfold enqueueStep
    dsimp only
    simp [List.append_assoc]

/-- C6: `downloadBatch(jobId, files)` sets the job's status to
"in progress", marks every submitted file `queued` in the store, appends
exactly one queue entry per file to the tail of the pending queue in
submission order (behind whatever entries other jobs already queued —
FIFO across jobs), and then triggers queue draining: it is exactly
`processQueue` applied to the enqueue phase. -/
theorem submitBatch_spec (s : Sys) (jobId : Nat) (files : List PdfFile)
    (job : DownloadJob)
    (hjob : s.store.getDownloadJob jobId = some job)
    (hpres : ∀ f ∈ files, (mapGet s.store.pdfFiles f.id).isSome) :
    ((enqueueBatch s jobId files).store.getDownloadJob jobId).map
        (fun j => j.status) = some "in progress"
    ∧ (∀ f ∈ files, (mapGet (enqueueBatch s jobId files).store.pdfFiles f.id).map
        (fun g => g.status) = some "queued")
    ∧ (enqueueBatch s jobId files).dl.queue
        = s.dl.queue ++ files.map (fun f => (jobId, f))
    ∧ downloadBatch s jobId files = processQueue (enqueueBatch s jobId files) := by
  refine ⟨?_, ?_, ?_, rfl⟩
  · unfold enqueueBatch
    dsimp only
    rw [enqueueFold_getJob]
    dsimp only
    unfold MemStorage.getDownloadJob
    rw [updateDownloadJob_self s.store jobId _ job hjob]
    simp [DownloadJob.applyUpdate]
  · intro f hf
    unfold enqueueBatch
    dsimp only
    apply enqueueFold_marks_queued jobId files _ f hf
    intro g hg
    dsimp only
    rw [updateDownloadJob_pdfFiles_eq]
    exact hpres g hg
  · unfold enqueueBatch
    dsimp only
    rw [enqueueFold_queue]

/-- Witness for C6 at the concrete two-file store. -/
theorem submitBatch_spec_witness :
    ((enqueueBatch (Sys.init twoFileStore) 1 [fileA, fileB]).store.getDownloadJob
        1).map (fun j => j.status) = some "in progress"
    ∧ (enqueueBatch (Sys.init twoFileStore) 1 [fileA, fileB]).dl.queue
        = (Sys.init twoFileStore).dl.queue ++ [fileA, fileB].map (fun f => (1, f)) :=
  ⟨(submitBatch_spec (Sys.init twoFileStore) 1 [fileA, fileB]
      ⟨1, "JFK Records 1-2", 2, 0, none, "queued", 0, none⟩ (by decide)
      (by decide)).1,
   (submitBatch_spec (Sys.init twoFileStore) 1 [fileA, fileB]
      ⟨1, "JFK Records 1-2", 2, 0, none, "queued", 0, none⟩ (by decide)
      (by decide)).2.2.1⟩

end JfkScraper
